import Mathlib

/-!
Verification development for the Eyra backend database handler
(`Backend/server-interface/db_handler.py`).

The Python module is shallowly embedded: JSON values become an inductive
`JVal`, the relational tables become lists of rows, the filesystem becomes an
append-only list of written files, Python exceptions become an explicit
`PyErr` propagated through `Except`, and each `DbHandler` method becomes an
executable Lean function translated statement-by-statement from the source.

Modelling conventions (documented deviations from CPython, none of which the
theorems below rely on):
* MySQL is assumed available and failure-free: `MySQLError` / `os.error`
  branches are unreachable in the model, except where a *deterministic* SQL
  syntax error occurs (noted inline).
* SQL `=` between a bound parameter and a column is modelled syntactically
  (`sqlEq`): `NULL` compares unequal to everything, other values compare by
  structural equality.  MySQL string/number coercions are not modelled.
* Python `==` between two values is modelled by structural equality `jvalBeq`
  (so `True == 1`, which is true in Python, is false in the model; the
  theorems never compare a boolean against a number).
* `str(v)` for container values is modelled by an unparseable placeholder;
  the claims only interpolate scalars.
* AUTO_INCREMENT ids are modelled as `max(existing ids) + 1`, starting at 1.
* The messages built by string interpolation such as
  `'\x7b"speakerId":' + str(id) + '\x7d'` are modelled structurally by `Msg`,
  together with the success/failure behaviour of `json.loads` on them.
-/

namespace Eyra

/-- A decoded JSON value / dynamically-typed Python value.  Python `None` and
JSON `null` are both `jnull` (CPython identifies them after `json.loads`). -/
inductive JVal where
  | jnull
  | jbool (b : Bool)
  | jnum (n : Int)
  | jstr (s : String)
  | jarr (xs : List JVal)
  | jobj (fields : List (String × JVal))

mutual
/-- Structural equality of dynamic values (models Python `==` on the values
that occur in this program; see the module docstring for the deviations). -/
def jvalBeq : JVal → JVal → Bool
  | .jnull, .jnull => true
  | .jbool a, .jbool b => a == b
  | .jnum a, .jnum b => a == b
  | .jstr a, .jstr b => a == b
  | .jarr as, .jarr bs => jarrBeq as bs
  | .jobj as, .jobj bs => jobjBeq as bs
  | _, _ => false
/-- Elementwise equality of JSON arrays. -/
def jarrBeq : List JVal → List JVal → Bool
  | [], [] => true
  | a :: as, b :: bs => jvalBeq a b && jarrBeq as bs
  | _, _ => false
/-- Entrywise equality of JSON objects (Python dicts of this program keep
insertion order and have no duplicate keys). -/
def jobjBeq : List (String × JVal) → List (String × JVal) → Bool
  | [], [] => true
  | (k, a) :: as, (l, b) :: bs => k == l && jvalBeq a b && jobjBeq as bs
  | _, _ => false
end

/-- The Python exceptions this module can raise and leave unhandled or
selectively catch. -/
inductive PyErr where
  | keyError
  | typeError
  | valueError
  | attributeError
  | unboundLocalError
  deriving DecidableEq, Repr

/-- Python `d[k]` on a dynamic value: a field lookup on a dict, `KeyError`
when the key is missing, `TypeError` on every non-dict (subscripting `None`,
numbers, booleans; string/list subscripts with a string index also raise
`TypeError`). -/
def pyGet (v : JVal) (k : String) : Except PyErr JVal :=
  match v with
  | .jobj fields =>
    match fields.lookup k with
    | some x => .ok x
    | none => .error .keyError
  | _ => .error .typeError

/-- Python `k in d` for a dict, returning `none` when `d` is not a dict or the
key is absent: used to model the `try: x = d[k] except KeyError: pass`
pattern and `'tokenText' in entry` once `entry` is known to be a dict. -/
def jsonGet? (v : JVal) (k : String) : Option JVal :=
  match v with
  | .jobj fields => fields.lookup k
  | _ => none

/-- Python truthiness (`if not x:`). -/
def pyFalsy : JVal → Bool
  | .jnull => true
  | .jbool b => !b
  | .jnum n => n == 0
  | .jstr s => s.isEmpty
  | .jarr xs => xs.isEmpty
  | .jobj fields => fields.isEmpty

/-- Python `str(v)`.  Container values are rendered as an unparseable
placeholder (deviation: CPython renders their repr); the program only ever
interpolates scalars on the paths the theorems speak about. -/
def pyStr : JVal → String
  | .jnull => "None"
  | .jbool true => "True"
  | .jbool false => "False"
  | .jnum n => toString n
  | .jstr s => s
  | .jarr _ => "<unrepresentable>"
  | .jobj _ => "<unrepresentable>"

/-- SQL `column = parameter` comparison: `NULL` matches nothing, everything
else compares structurally. -/
def sqlEq (a b : JVal) : Bool :=
  match a, b with
  | .jnull, _ => false
  | _, .jnull => false
  | x, y => jvalBeq x y

/-- SQL comparison of a client-supplied dynamic value against an integer id
column. -/
def jvalEqInt (v : JVal) (i : Int) : Bool :=
  jvalBeq v (.jnum i)

/-- SQL comparison of a client-supplied dynamic value against a string
column. -/
def jvalEqStr (v : JVal) (s : String) : Bool :=
  jvalBeq v (.jstr s)

/-- The result of `json.loads('\x7b"xId":' + str(v) + '\x7d')['xId']`:
an integer passes through, a string of digits parses as the number it spells,
everything else makes the interpolated text invalid JSON (`ValueError`). -/
def loadsIdInt (v : JVal) : Option Int :=
  match v with
  | .jnum n => some n
  | .jstr s => s.toInt?
  | _ => none

/-- The structured form of the `msg` strings the handler builds. -/
inductive Msg where
  | idMsg (field : String) (idv : JVal)
  | plain (s : String)
  | sessionResult (sessionId deviceId speakerId recsDelivered : Int)

/-- A `dict(msg=..., statusCode=...)` response. -/
structure PyResp where
  msg : Msg
  statusCode : Nat

/-- `json.loads(res['msg'])['<field>Id']` for a resolver response: succeeds
exactly when the message is the id-JSON for `field` and the interpolated
value parses as a JSON integer. -/
def loadsId (field : String) (m : Msg) : Option Int :=
  match m with
  | .idMsg f v => if f == field then loadsIdInt v else none
  | _ => none

/-! ## String helpers (kernel-computable models of the Python `str` methods) -/

/-- One pass of Python `str.replace` (fuelled so that the recursion is
structural and kernel-computable): leftmost non-overlapping occurrences of
`pat` become `rep`.  With `fuel = length` the fuel never runs out for the
non-empty patterns this program uses, since every step consumes at least one
character. -/
def replaceListAux (pat rep : List Char) : Nat → List Char → List Char
  | _, [] => []
  | 0, l => l
  | n + 1, c :: cs =>
    if pat.isPrefixOf (c :: cs) then
      rep ++ replaceListAux pat rep n ((c :: cs).drop pat.length)
    else
      c :: replaceListAux pat rep n cs

/-- Python `s.replace(pat, rep)` for a non-empty `pat`. -/
def strReplace (s pat rep : String) : String :=
  String.mk (replaceListAux pat.toList rep.toList s.toList.length s.toList)

/-- Python `pat in s` on strings (substring containment). -/
def hasSubstr (pat : List Char) : List Char → Bool
  | [] => pat.isEmpty
  | c :: cs => pat.isPrefixOf (c :: cs) || hasSubstr pat cs

/-! ## Relational state -/

/-- A row of one of the generically-inserted tables (`device`, `instructor`,
`speaker`, `speaker_info`): the auto-generated id plus the inserted columns;
columns not inserted are SQL `NULL`. -/
structure Row where
  id : Int
  cols : List (String × JVal)

/-- Column access on a generic row; absent columns read as `NULL`. -/
def getCol (r : Row) (c : String) : JVal :=
  (r.cols.lookup c).getD .jnull

/-- A row of `token`. -/
structure TokenRow where
  id : Int
  inputToken : String
  valid : Bool

/-- A row of `session`.  `speakerId` and `deviceId` are written by the
ingestion pipeline from already-resolved integer ids; the remaining payload
columns hold whatever the client submitted. -/
structure SessionRow where
  id : Int
  speakerId : Int
  instructorId : JVal
  deviceId : Int
  location : JVal
  start : JVal
  sessEnd : JVal
  comments : JVal

/-- A row of `recording`. -/
structure RecordingRow where
  id : Int
  tokenId : JVal
  speakerId : Int
  sessionId : Int
  filename : String

/-- A row of `evaluation_sets`. -/
structure EvalSetRow where
  id : Int
  eval_set : String
  recordingId : Int

/-- A row of `evaluation`. -/
structure EvaluationRow where
  id : Int
  recordingId : Int
  eval_set : String
  evaluator : JVal
  grade : JVal
  comments : JVal
  skipped : JVal

/-- The committed relational state. -/
structure DB where
  device : List Row
  instructor : List Row
  speaker : List Row
  speaker_info : List Row
  token : List TokenRow
  session : List SessionRow
  recording : List RecordingRow
  evaluation_sets : List EvalSetRow
  evaluation : List EvaluationRow

/-- The next AUTO_INCREMENT id for a table with the given ids. -/
def freshId (ids : List Int) : Int :=
  ids.foldr max 0 + 1

/-! ## Filesystem -/

/-- One file written to disk (path plus content).  The store is append-only:
`rec.save` / `open(...,'w')` never delete, and the theorems only speak about
presence and location of written files. -/
structure FsFile where
  path : String
  content : String

/-- An uploaded recording (`werkzeug` `FileStorage`): its client-supplied
filename and its bytes. -/
structure Rec where
  filename : String
  content : String

/-! ## insertGeneralData and the identity resolvers -/

/-- The per-table insertion allow-lists (`self.allowedColumnNames`). -/
def allowedColumnNames : String → List String
  | "device" => ["userAgent", "imei"]
  | "instructor" => ["name", "email", "phone", "address"]
  | "speaker" => ["name", "deviceImei"]
  | "speaker_info" => ["speakerId", "s_key", "s_value"]
  | _ => []

/-- `DbHandler.insertGeneralData(name, data, table)` (db_handler.py 78-195)
for `name = table` as at every call site, acting on the named table given as
a row list.  Validates every key against the allow-list (`KeyError` caught as
a 400), inserts the allow-listed columns, re-selects by exact match on every
inserted column and returns the maximum matching id; the transaction is
committed just before returning 200.  Deterministic error cases kept from the
source: inserting no columns at all makes the re-select query syntactically
invalid (`MySQLError`, a 500, nothing committed); an empty re-select result
makes `max([])` raise an uncaught `ValueError` (nothing committed, so the
returned table is the input).  A non-dict, non-string `data` makes
`data.items()` raise an uncaught `AttributeError`; a string `data` is passed
to `json.loads`, modelled as the caught `ValueError` path (no caller in this
development passes a string). -/
def insertGeneralData (name : String) (data : JVal) (table : List Row) :
    Except PyErr (PyResp × List Row) :=
  match data with
  | .jstr _ => .ok (⟨.plain (name ++ " data not on correct format, aborting."), 400⟩, table)
  | .jobj fields =>
    if fields.all (fun kv => (allowedColumnNames name).contains kv.1) then
      if fields.isEmpty then
        .ok (⟨.plain "Database error.", 500⟩, table)
      else
        let newId := freshId (table.map Row.id)
        let table1 := table ++ [⟨newId, fields⟩]
        let found := table1.filter (fun r => fields.all (fun kv => sqlEq (getCol r kv.1) kv.2))
        match (found.map Row.id).max? with
        | none => .error .valueError
        | some dataId => .ok (⟨.idMsg name (.jnum dataId), 200⟩, table1)
    else
      .ok (⟨.plain (name ++ " data not on correct format, aborting."), 400⟩, table)
  | _ => .error .attributeError

/-- The `speaker_info` attribute loop of `DbHandler.insertSpeakerData`
(211-217): one generic insert per attribute, each return value ignored. -/
def insertAttrs (speakerId : Int) :
    List (String × String) → List Row → Except PyErr (List Row)
  | [], acc => .ok acc
  | (k, v) :: rest, acc =>
    match insertGeneralData "speaker_info"
        (.jobj [("speakerId", .jnum speakerId), ("s_key", .jstr k), ("s_value", .jstr v)])
        acc with
    | .error e => .error e
    | .ok (_, acc1) => insertAttrs speakerId rest acc1

/-- `DbHandler.insertSpeakerData` (197-218): insert the speaker, then (when
the speaker insert produced an id) one `speaker_info` row per extra
attribute. -/
def insertSpeakerData (speaker speakerInfoT : List Row) (speakerData : JVal)
    (speakerInfo : List (String × String)) :
    Except PyErr (PyResp × List Row × List Row) :=
  match insertGeneralData "speaker" speakerData speaker with
  | .error e => .error e
  | .ok (res, speaker1) =>
    match res.msg with
    | .idMsg "speaker" (.jnum speakerId) =>
      match insertAttrs speakerId speakerInfo speakerInfoT with
      | .error e => .error e
      | .ok infoT1 => .ok (res, speaker1, infoT1)
    | _ => .ok (res, speaker1, speakerInfoT)

/-- `DbHandler.processSpeakerData` (329-409): resolve or create a speaker.
Requires `name`; extra keys become `speaker_info` attributes attached only at
creation.  With a non-empty `deviceImei`, look up by (name, deviceImei);
else with a non-empty `speakerId`, look up by id and compare names; else
insert fresh. -/
def processSpeakerData (speaker speakerInfoT : List Row) (speakerData : JVal) :
    Except PyErr (PyResp × List Row × List Row) :=
  match pyGet speakerData "name" with
  | .error _ =>
    .ok (⟨.plain "Speaker data not on correct format, aborting.", 400⟩, speaker, speakerInfoT)
  | .ok name =>
    let deviceImei := jsonGet? speakerData "deviceImei"
    let speakerId := jsonGet? speakerData "speakerId"
    let extras : List (String × JVal) :=
      match speakerData with
      | .jobj fields => fields.filter
          (fun kv => kv.1 != "name" && kv.1 != "deviceImei" && kv.1 != "speakerId")
      | _ => []
    let speakerInfo := extras.map (fun kv => (kv.1, pyStr kv.2))
    match deviceImei with
    | some imei =>
      if !(jvalBeq imei .jnull) && !(jvalBeq imei (.jstr "")) then
        let newSpeakerData : JVal := .jobj [("name", name), ("deviceImei", imei)]
        match speaker.find? (fun r =>
            sqlEq (getCol r "name") name && sqlEq (getCol r "deviceImei") imei) with
        | none => insertSpeakerData speaker speakerInfoT newSpeakerData speakerInfo
        | some r => .ok (⟨.idMsg "speaker" (.jnum r.id), 200⟩, speaker, speakerInfoT)
      else
        processSpeakerDataById speaker speakerInfoT name speakerId speakerInfo
    | none => processSpeakerDataById speaker speakerInfoT name speakerId speakerInfo
where
  /-- The id branch and the fall-through insert of `processSpeakerData`
  (382-409). -/
  processSpeakerDataById (speaker speakerInfoT : List Row) (name : JVal)
      (speakerId : Option JVal) (speakerInfo : List (String × String)) :
      Except PyErr (PyResp × List Row × List Row) :=
    let newSpeakerData : JVal := .jobj [("name", name)]
    match speakerId with
    | some sid =>
      if !(jvalBeq sid .jnull) && !(jvalBeq sid (.jstr "")) then
        match speaker.find? (fun r => jvalEqInt sid r.id) with
        | none => insertSpeakerData speaker speakerInfoT newSpeakerData speakerInfo
        | some r =>
          if jvalBeq (getCol r "name") name then
            .ok (⟨.idMsg "speaker" sid, 200⟩, speaker, speakerInfoT)
          else
            insertSpeakerData speaker speakerInfoT newSpeakerData speakerInfo
      else
        insertSpeakerData speaker speakerInfoT newSpeakerData speakerInfo
    | none => insertSpeakerData speaker speakerInfoT newSpeakerData speakerInfo

/-- `DbHandler.processDeviceData` (256-327): resolve or create a device.
Requires `userAgent`.  With a non-empty `imei`, look up by imei (found:
return the stored id; not found: insert).  Else with a non-empty `deviceId`,
look up by id and compare user agents (match: return the *submitted* id;
mismatch or absent: insert a fork).  Else insert.  The `deviceId` key is
deleted from the document before any insert. -/
def processDeviceData (device : List Row) (deviceData : JVal) :
    Except PyErr (PyResp × List Row) :=
  match pyGet deviceData "userAgent" with
  | .error _ =>
    .ok (⟨.plain "Device data not on correct format, aborting.", 400⟩, device)
  | .ok userAgent =>
    let deviceImei := jsonGet? deviceData "imei"
    let deviceId := jsonGet? deviceData "deviceId"
    let dataForInsert : JVal :=
      match deviceData with
      | .jobj fields => .jobj (fields.filter (fun kv => kv.1 != "deviceId"))
      | v => v
    let idBranch : Except PyErr (PyResp × List Row) :=
      match deviceId with
      | some did =>
        if !(jvalBeq did .jnull) && !(jvalBeq did (.jstr "")) then
          match device.find? (fun r => jvalEqInt did r.id) with
          | none => insertGeneralData "device" dataForInsert device
          | some r =>
            if jvalBeq (getCol r "userAgent") userAgent then
              .ok (⟨.idMsg "device" did, 200⟩, device)
            else
              insertGeneralData "device" dataForInsert device
        else
          insertGeneralData "device" dataForInsert device
      | none => insertGeneralData "device" dataForInsert device
    match deviceImei with
    | some imei =>
      if !(jvalBeq imei .jnull) && !(jvalBeq imei (.jstr "")) then
        match device.find? (fun r => sqlEq (getCol r "imei") imei) with
        | none => insertGeneralData "device" dataForInsert device
        | some r => .ok (⟨.idMsg "device" (.jnum r.id), 200⟩, device)
      else idBranch
    | none => idBranch

/-- Python `'id' in instructorData` (db_handler.py 232): key test on a dict,
substring test on a string, element test on a list, `TypeError` otherwise. -/
def pyContainsId : JVal → Except PyErr Bool
  | .jobj fields => .ok (fields.any (fun kv => kv.1 == "id"))
  | .jstr s => .ok (hasSubstr "id".toList s.toList)
  | .jarr xs => .ok (xs.any (fun x => jvalBeq x (.jstr "id")))
  | _ => .error .typeError

/-- `DbHandler.processInstructorData` (220-254): with an `id`, strict lookup
(found: return it; absent: 400, never inserting); without an `id`, generic
insert. -/
def processInstructorData (instructor : List Row) (instructorData : JVal) :
    Except PyErr (PyResp × List Row) :=
  match pyContainsId instructorData with
  | .error e => .error e
  | .ok hasId =>
    if hasId then
      match pyGet instructorData "id" with
      | .error e => .error e
      | .ok idv =>
        match instructor.find? (fun r => jvalEqInt idv r.id) with
        | none => .ok (⟨.plain "No instructor with that id.", 400⟩, instructor)
        | some r => .ok (⟨.idMsg "instructor" (.jnum r.id), 200⟩, instructor)
    else
      insertGeneralData "instructor" instructorData instructor

/-! ## The recording store -/

/-- Modelled from the spec: `util.filename` (imported by db_handler.py but not
under `src/`), §4.3 — sanitizes an untrusted name component into a slug,
neutralizing path separators and reserved characters.  ASCII letters, digits,
dot and dash pass through; every other character becomes an underscore. -/
def filename (s : String) : String :=
  String.mk (s.toList.map (fun c => if c.isAlphanum || c == '.' || c == '-' then c else '_'))

/-- The `session_<id>` path component: `'unknown'` for a falsy session id
(`None`, or `0`). -/
def sessionIdStr (sessionId : Option Int) : String :=
  match sessionId with
  | none => "unknown"
  | some i => if i == 0 then "unknown" else toString i

/-- The saved basename `<slug(speakerName)>_<slug(orig)>` with the falsy
speaker name replaced by `'unknown'` (db_handler.py 589, 597). -/
def recNameOf (speakerName : JVal) (fname : String) : String :=
  filename (pyStr (if pyFalsy speakerName then .jstr "unknown" else speakerName)) ++
    "_" ++ filename fname

/-- `DbHandler.writeRecToFilesystem` (567-607): write the audio under
`<root>/session_<sessionId>/<slug(speakerName)>_<slug(rec.filename)>` —
under `<root>/lost/session_<sessionId>/...` when `lost` — and the prompt
text alongside it with `.wav` replaced by `.txt`.  A falsy token becomes
`'No prompt.'`; a falsy `sessionId` or `speakerName` becomes `'unknown'`.
Writing a truthy non-string token raises an uncaught `TypeError` after the
audio was saved and the (then empty) text file was created.  Returns the
saved basename. -/
def writeRecToFilesystem (recordingsPath : String) (fs : List FsFile) (rec : Rec)
    (token : JVal) (sessionId : Option Int) (speakerName : JVal) (lost : Bool) :
    Except PyErr String × List FsFile :=
  let token1 : JVal := if pyFalsy token then .jstr "No prompt." else token
  let sessionPath :=
    if lost then recordingsPath ++ "/lost/session_" ++ sessionIdStr sessionId
    else recordingsPath ++ "/session_" ++ sessionIdStr sessionId
  let recName := recNameOf speakerName rec.filename
  let wavePath := sessionPath ++ "/" ++ recName
  let txtPath := strReplace wavePath ".wav" ".txt"
  let fs1 := fs ++ [⟨wavePath, rec.content⟩]
  match token1 with
  | .jstr s => (.ok recName, fs1 ++ [⟨txtPath, s⟩])
  | _ => (.error .typeError, fs1 ++ [⟨txtPath, ""⟩])

/-! ## The session ingestion pipeline -/

/-- The fully-extracted session fields of one submission (the locals of
`processSessionData` after a successful identity-resolution phase). -/
structure SessionVals where
  speakerId : Int
  instructorId : JVal
  deviceId : Int
  location : JVal
  start : JVal
  sessEnd : JVal
  comments : JVal

/-- The session upsert block of `processSessionData` (474-504): select by the
identity key (speakerId, instructorId, deviceId, location, start); on a hit
update only `end` of that row; on a miss insert the full row (including
`comments`) and re-select its id with `end` added to the key, where an empty
re-select makes `fetchone()[0]` raise an uncaught `TypeError`. -/
def sessionUpsert (sessions : List SessionRow) (v : SessionVals) :
    Except PyErr (List SessionRow × Int) :=
  let keyMatch := fun (r : SessionRow) =>
    r.speakerId == v.speakerId && sqlEq r.instructorId v.instructorId &&
    r.deviceId == v.deviceId && sqlEq r.location v.location && sqlEq r.start v.start
  match sessions.find? keyMatch with
  | some r =>
    .ok (sessions.map (fun s => if s.id == r.id then { s with sessEnd := v.sessEnd } else s), r.id)
  | none =>
    let newId := freshId (sessions.map SessionRow.id)
    let sessions1 := sessions ++
      [⟨newId, v.speakerId, v.instructorId, v.deviceId, v.location, v.start, v.sessEnd, v.comments⟩]
    match sessions1.find? (fun r => keyMatch r && sqlEq r.sessEnd v.sessEnd) with
    | some r2 => .ok (sessions1, r2.id)
    | none => .error .typeError

/-- The outcome of the JSON-extraction / identity-resolution phase of
`processSessionData` (442-472).  `error` is the accumulated error flag,
`jsonDecoded` the value of the like-named local after the phase (the envelope
if the reassignment to `data` never ran, else the `data` object, `jnull` when
`json.loads` itself failed), `speakerName` the partially-assigned local, and
`vals` the complete extraction (present exactly when `error` is empty). -/
structure ExtractOut where
  db : DB
  error : String
  jsonDecoded : JVal
  speakerName : JVal
  vals : Option SessionVals

/-- The JSON-extraction / identity-resolution phase of `processSessionData`
(442-472): decode the envelope, require `type == 'session'`, resolve speaker
and device (their inserts commit inside the resolvers), and read the session
fields.  Any `KeyError` / `TypeError` / `ValueError` — including one raised
out of a resolver, whose own uncommitted insert is then discarded with the
transaction — is caught and sets the error flag, keeping whatever locals were
already assigned. -/
def extractPhase (db : DB) (jsonData : Option JVal) : ExtractOut :=
  let fail := fun (db1 : DB) (jd sn : JVal) =>
    ExtractOut.mk db1 "Session data not on correct format." jd sn none
  match jsonData with
  | none => fail db .jnull .jnull
  | some env =>
    match pyGet env "type" with
    | .error _ => fail db env .jnull
    | .ok t =>
      if jvalBeq t (.jstr "session") then
        match pyGet env "data" with
        | .error _ => fail db env .jnull
        | .ok data =>
          match pyGet data "speakerInfo" with
          | .error _ => fail db data .jnull
          | .ok spInfo =>
            match pyGet spInfo "name" with
            | .error _ => fail db data .jnull
            | .ok sname =>
              match processSpeakerData db.speaker db.speaker_info spInfo with
              | .error _ => fail db data sname
              | .ok (spResp, speaker1, speakerInfoT1) =>
                let db1 := { db with speaker := speaker1, speaker_info := speakerInfoT1 }
                match loadsId "speaker" spResp.msg with
                | none => fail db1 data sname
                | some spId =>
                  match pyGet data "instructorId" with
                  | .error _ => fail db1 data sname
                  | .ok instrId =>
                    match pyGet data "deviceInfo" with
                    | .error _ => fail db1 data sname
                    | .ok devInfo =>
                      match processDeviceData db1.device devInfo with
                      | .error _ => fail db1 data sname
                      | .ok (devResp, device1) =>
                        let db2 := { db1 with device := device1 }
                        match loadsId "device" devResp.msg with
                        | none => fail db2 data sname
                        | some devId =>
                          match pyGet data "location" with
                          | .error _ => fail db2 data sname
                          | .ok loc =>
                            match pyGet data "start" with
                            | .error _ => fail db2 data sname
                            | .ok strt =>
                              match pyGet data "end" with
                              | .error _ => fail db2 data sname
                              | .ok endv =>
                                match pyGet data "comments" with
                                | .error _ => fail db2 data sname
                                | .ok comm =>
                                  ⟨db2, "", data, sname,
                                    some ⟨spId, instrId, devId, loc, strt, endv, comm⟩⟩
      else
        ⟨db, "Wrong type of data.", env, .jnull, none⟩

/-- `jsonDecoded['recordingsInfo'][rec.filename]` and its `['tokenId']`
(db_handler.py 514): the entry for one upload and its token id. -/
def recInfoEntry (jsonDecoded : JVal) (fname : String) : Except PyErr (JVal × JVal) :=
  match pyGet jsonDecoded "recordingsInfo" with
  | .error e => .error e
  | .ok ri =>
    match pyGet ri fname with
    | .error e => .error e
    | .ok entry =>
      match pyGet entry "tokenId" with
      | .error e => .error e
      | .ok tokenId => .ok (entry, tokenId)

/-- The wave-file path assembled by `writeRecToFilesystem` (578-589): under
`lost/` when the write is quarantined, keyed by the session id or the
`'unknown'` sentinel. -/
def recWavePath (recordingsPath : String) (lost : Bool) (sessionId : Option Int)
    (speakerName : JVal) (fname : String) : String :=
  (if lost then recordingsPath ++ "/lost/session_" ++ sessionIdStr sessionId
   else recordingsPath ++ "/session_" ++ sessionIdStr sessionId) ++
    "/" ++ recNameOf speakerName fname

/-- Whether `writeRecToFilesystem` can save the prompt for this token: after
the falsy-to-`'No prompt.'` substitution the value must be a string, else
`f.write` raises. -/
def writableToken (token : JVal) : Bool :=
  match (if pyFalsy token then JVal.jstr "No prompt." else token) with
  | .jstr _ => true
  | _ => false

/-- A well-formed upload in the sense of the per-recording loop: its
`recordingsInfo` entry resolves, carries an inline `tokenText`, and that
prompt is writable. -/
def inlineWritable (jsonDecoded : JVal) (fname : String) : Bool :=
  match recInfoEntry jsonDecoded fname with
  | .error _ => false
  | .ok (entry, _) =>
    match jsonGet? entry "tokenText" with
    | some tk => writableToken tk
    | none => false

/-- Result of the per-recording loop: normal completion with the final error
flag, transaction-local recording table and filesystem, or an uncaught
exception with the filesystem as already written. -/
inductive LoopRes where
  | done (error : String) (recTable : List RecordingRow) (fs : List FsFile)
  | raised (e : PyErr) (fs : List FsFile)

/-- The per-recording loop of `processSessionData` (512-539).  For each
upload: read `recordingsInfo[rec.filename]['tokenId']`; take the inline
`tokenText` if present, otherwise look the token up through the cursor —
which is unbound (`UnboundLocalError`) whenever the identity phase errored
and the session block therefore never ran — with a failed lookup setting the
error flag; write the recording to the normal directory when the error flag
is still empty, to the lost directory otherwise; and queue a `recording` row
only when the error flag is empty. -/
def recLoop (recordingsPath : String) (jsonDecoded : JVal) (curBound : Bool)
    (tokenTable : List TokenRow) (speakerName : JVal)
    (sessionId : Option Int) (speakerId : Option Int) :
    List Rec → String → List RecordingRow → List FsFile → LoopRes
  | [], error, recTable, fs => .done error recTable fs
  | r :: rest, error, recTable, fs =>
    match recInfoEntry jsonDecoded r.filename with
    | .error e => .raised e fs
    | .ok (entry, tokenId) =>
      let step := fun (token : JVal) (error1 : String) =>
        match writeRecToFilesystem recordingsPath fs r token sessionId speakerName
            (!(error1 == "")) with
        | (.error e, fs1) => .raised e fs1
        | (.ok recName, fs1) =>
          let recTable1 :=
            if error1 == "" then
              match speakerId, sessionId with
              | some sp, some sid =>
                recTable ++ [⟨freshId (recTable.map RecordingRow.id), tokenId, sp, sid, recName⟩]
              | _, _ => recTable
              -- the fallback is unreachable: the error flag is empty only
              -- after the identity and session phases assigned both ids
            else recTable
          recLoop recordingsPath jsonDecoded curBound tokenTable speakerName
            sessionId speakerId rest error1 recTable1 fs1
      match jsonGet? entry "tokenText" with
      | some tt => step tt error
      | none =>
        if curBound then
          match tokenTable.find? (fun t => jvalEqInt tokenId t.id) with
          | none => step .jnull "No token with supplied id."
          | some t => step (.jstr t.inputToken) error
        else
          .raised .unboundLocalError fs

/-- `recordings`, the second argument of `processSessionData`: either not a
list at all or a list of uploads. -/
inductive RecordingsArg where
  | notList
  | ofList (recs : List Rec)

/-- The two by-axis recording counts of `DbHandler.getRecordingCount`
(609-653): recordings whose speaker row carries the submitted name and whose
session row carries the resolved device. -/
def recCountByName (db : DB) (speakerName : JVal) (deviceId : Int) : Nat :=
  (db.recording.filter (fun r =>
    db.speaker.any (fun s => sqlEq (getCol s "name") speakerName && s.id == r.speakerId) &&
    db.session.any (fun ses => ses.deviceId == deviceId && ses.id == r.sessionId))).length

/-- Recordings carrying the resolved speaker id (the second count of
`getRecordingCount`). -/
def recCountById (db : DB) (speakerId : Int) : Nat :=
  (db.recording.filter (fun r => r.speakerId == speakerId)).length

/-- `DbHandler.getRecordingCount` (609-653): the maximum of the by-name/
by-device count and the by-id count (the `-1` branch needs a `MySQLError`
and is unreachable in the model). -/
def getRecordingCount (db : DB) (speakerName : JVal) (speakerId : Int) (deviceId : Int) : Int :=
  max (Int.ofNat (recCountByName db speakerName deviceId)) (Int.ofNat (recCountById db speakerId))

/-- The session-upsert step of `processSessionData` (474-504): runs only
when no error accumulated during extraction; its relational write stays in
the open transaction.  (The `vals = none` fallback is unreachable: an empty
error flag comes with complete vals.) -/
def sessionPhase (ex : ExtractOut) : Except PyErr (List SessionRow × Option Int) :=
  if ex.error == "" then
    match ex.vals with
    | some v =>
      match sessionUpsert ex.db.session v with
      | .ok (tbl, sid) => .ok (tbl, some sid)
      | .error e => .error e
    | none => .ok (ex.db.session, none)
  else
    .ok (ex.db.session, none)

/-- `DbHandler.processSessionData` (411-565): the whole ingestion pipeline.
Returns the response (or the uncaught exception), the committed relational
state, and the filesystem.  Flow: reject a non-list or empty `recordings`
up front; run the extraction phase; when no error accumulated, upsert the
session (uncommitted); run the per-recording loop; a `KeyError` escaping the
loop is caught as a 400, other exceptions propagate, and in both cases the
transaction is not committed; with an empty error flag commit session and
recording rows and acknowledge with the delivered-recording count, otherwise
answer the error with status 400 (500 would need a `MySQLError`). -/
def processSessionData (recordingsPath : String) (db : DB) (fs : List FsFile)
    (jsonData : Option JVal) (recordings : RecordingsArg) :
    Except PyErr PyResp × DB × List FsFile :=
  match recordings with
  | .notList => (.ok ⟨.plain "No recordings received, aborting.", 400⟩, db, fs)
  | .ofList recs =>
    if recs.isEmpty then
      (.ok ⟨.plain "No recordings received, aborting.", 400⟩, db, fs)
    else
      let ex := extractPhase db jsonData
      match sessionPhase ex with
      | .error e => (.error e, ex.db, fs)
      | .ok (sessions1, sessionId?) =>
        let curBound := ex.error == ""
        match recLoop recordingsPath ex.jsonDecoded curBound ex.db.token ex.speakerName
            sessionId? (ex.vals.map SessionVals.speakerId) recs ex.error ex.db.recording fs with
        | .raised .keyError fs1 =>
          (.ok ⟨.plain "Missing recording info in session data.", 400⟩, ex.db, fs1)
        | .raised e fs1 => (.error e, ex.db, fs1)
        | .done error1 recTable1 fs1 =>
          if error1 == "" then
            match ex.vals, sessionId? with
            | some v, some sid =>
              let dbC := { ex.db with session := sessions1, recording := recTable1 }
              let numRecs := getRecordingCount dbC ex.speakerName v.speakerId v.deviceId
              (.ok ⟨.sessionResult sid v.deviceId v.speakerId numRecs, 200⟩, dbC, fs1)
            | _, _ => (.ok ⟨.plain error1, 400⟩, ex.db, fs1)
              -- unreachable: an empty error flag comes with complete vals
          else
            (.ok ⟨.plain error1, 400⟩, ex.db, fs1)

/-! ## The evaluation catalog -/

/-- The JSON payload of a `getFromSet` response: link/prompt pairs or an
error string. -/
inductive SetResult where
  | pairs (xs : List (String × String))
  | errMsg (s : String)

/-- Ascending insertion by id (`ORDER BY evaluation_sets.id ASC`). -/
def insertAsc (x : EvalSetRow) : List EvalSetRow → List EvalSetRow
  | [] => [x]
  | y :: ys => if x.id ≤ y.id then x :: y :: ys else y :: insertAsc x ys

/-- Sort membership rows ascending by id. -/
def sortByIdAsc (xs : List EvalSetRow) : List EvalSetRow :=
  xs.foldr insertAsc []

/-- `DbHandler.getFromSet` (733-791).  For the synthetic set `'Random'`:
select every recording id, drop the first (the placeholder row of
`populate_db.sql`), draw `count` ids by `random.sample` — modelled by the
`sample` oracle; a `count` above the population size raises its uncaught
`ValueError`, and an empty draw renders the `IN ()` clause invalid
(`MySQLError`, 500) — and join the drawn recordings with their tokens.  For
a materialized set: join membership rows in id order with recordings and
tokens and slice `[progress, progress+count)`.  An empty result answers 404
in both cases. -/
def getFromSet (recsUrl : String) (db : DB) (sample : List Int → Nat → List Int)
    (eval_set : String) (progress : Nat) (count : Nat) :
    Except PyErr (SetResult × Nat) :=
  if eval_set == "Random" then
    let recIds := (db.recording.map RecordingRow.id).drop 1
    if count ≤ recIds.length then
      let randIds := sample recIds count
      if randIds.isEmpty then
        .ok (.errMsg "Error grabbing from set.", 500)
      else
        let joined := (db.recording.filter (fun r => randIds.contains r.id)).flatMap
          (fun r => (db.token.filter (fun t => jvalEqInt r.tokenId t.id)).map
            (fun t => (r.sessionId, r.filename, t.inputToken)))
        let partialSet := joined.map
          (fun x => (recsUrl ++ "/session_" ++ toString x.1 ++ "/" ++ x.2.1, x.2.2))
        if partialSet.isEmpty then
          .ok (.errMsg "No set by that name in database.", 404)
        else
          .ok (.pairs partialSet, 200)
    else
      .error .valueError
  else
    let joined := (sortByIdAsc (db.evaluation_sets.filter
        (fun es => es.eval_set == eval_set))).flatMap
      (fun es => (db.recording.filter (fun r => r.id == es.recordingId)).flatMap
        (fun r => (db.token.filter (fun t => jvalEqInt r.tokenId t.id)).map
          (fun t => (r.sessionId, r.filename, t.inputToken))))
    let partialSet := joined.map
      (fun x => (recsUrl ++ "/session_" ++ toString x.1 ++ "/" ++ x.2.1, x.2.2))
    if partialSet.isEmpty then
      .ok (.errMsg "No set by that name in database.", 404)
    else
      .ok (.pairs ((partialSet.drop progress).take count), 200)

/-- The `data` argument of `processEvaluation`: a JSON array of entries, or
text that `json.loads` rejects.  (Iterating the other JSON shapes —
dict/string iteration or the `TypeError` of iterating a number — is outside
the model; the endpoint only receives arrays.) -/
inductive EvalData where
  | notJson
  | parsed (entries : List JVal)

/-- The six field reads of one evaluation entry (db_handler.py 829-834), in
source order; the first failure wins. -/
def evalFields (e : JVal) : Except PyErr (JVal × JVal × JVal × JVal × JVal × JVal) :=
  match pyGet e "evaluator" with
  | .error err => .error err
  | .ok ev =>
    match pyGet e "sessionId" with
    | .error err => .error err
    | .ok sid =>
      match pyGet e "recordingFilename" with
      | .error err => .error err
      | .ok rf =>
        match pyGet e "grade" with
        | .error err => .error err
        | .ok g =>
          match pyGet e "comments" with
          | .error err => .error err
          | .ok c =>
            match pyGet e "skipped" with
            | .error err => .error err
            | .ok sk => .ok (ev, sid, rf, g, c, sk)

/-- The recording-id resolution of one evaluation entry (db_handler.py
841-856): by (sessionId, recordingFilename), scoped through the membership
table unless the set is `'Random'`; `fetchone` takes the first match. -/
def evalResolve (db : DB) (eval_set : String) (sid rf : JVal) : Option Int :=
  if eval_set == "Random" then
    (db.recording.find? (fun r =>
      jvalEqInt sid r.sessionId && jvalEqStr rf r.filename)).map RecordingRow.id
  else
    (db.recording.find? (fun r =>
      db.evaluation_sets.any (fun es => es.recordingId == r.id && es.eval_set == eval_set) &&
      jvalEqInt sid r.sessionId && jvalEqStr rf r.filename)).map RecordingRow.id

/-- The per-entry loop of `DbHandler.processEvaluation` (825-870).  Each
entry: read the six fields — a missing key is logged, flags the 400 error
and skips the entry; a non-dict entry raises an uncaught `TypeError` —
resolve the recording id from (sessionId, recordingFilename), scoped to the
membership table unless the set is `'Random'` — an empty result makes
`fetchone()[0]` raise the `TypeError` that is caught, flags the 400 error
and skips the entry — and queue the `evaluation` insert. -/
def evalLoop (db : DB) (eval_set : String) :
    List JVal → String → Nat → List EvaluationRow → Except PyErr (String × Nat × List EvaluationRow)
  | [], error, errorStatusCode, pending => .ok (error, errorStatusCode, pending)
  | e :: rest, error, errorStatusCode, pending =>
    match evalFields e with
    | .error .keyError =>
      evalLoop db eval_set rest "Some evaluation data not on correct format, wrong key." 400 pending
    | .error err => .error err
    | .ok (ev, sid, rf, g, c, sk) =>
      match evalResolve db eval_set sid rf with
      | none =>
        evalLoop db eval_set rest "Could not find a recording with some data." 400 pending
      | some recId =>
        let row : EvaluationRow :=
          ⟨freshId ((db.evaluation ++ pending).map EvaluationRow.id), recId, eval_set, ev, g, c, sk⟩
        evalLoop db eval_set rest error errorStatusCode (pending ++ [row])

/-- `DbHandler.processEvaluation` (793-877): reject unparseable data with a
400; run the per-entry loop; commit every queued insert unconditionally at
the end (an uncaught exception skips the commit); answer the last error
recorded, if any, else success. -/
def processEvaluation (db : DB) (eval_set : String) (data : EvalData) :
    Except PyErr ((String × Nat) × DB) :=
  match data with
  | .notJson => .ok (("Evaluation data not on correct format.", 400), db)
  | .parsed entries =>
    match evalLoop db eval_set entries "" 500 [] with
    | .error e => .error e
    | .ok (error, errorStatusCode, pending) =>
      let db1 := { db with evaluation := db.evaluation ++ pending }
      if error == "" then
        .ok (("Successfully processed evaluation.", 200), db1)
      else
        .ok ((error, errorStatusCode), db1)

/-! ## Concrete fixtures for witnesses and counterexamples -/

/-- A concrete database for the witness instantiations: one token row, the
other tables empty. -/
def dbTok : DB := ⟨[], [], [], [], [⟨1, "hello", true⟩], [], [], [], []⟩

/-- The identity-key predicate of the session upsert (the WHERE clause of
db_handler.py 480-482). -/
def sessionKeyMatch (v : SessionVals) (r : SessionRow) : Bool :=
  r.speakerId == v.speakerId && sqlEq r.instructorId v.instructorId &&
  r.deviceId == v.deviceId && sqlEq r.location v.location && sqlEq r.start v.start

/-- Whether a dynamic value is a JSON object (a Python dict). -/
def isObj : JVal → Bool
  | .jobj _ => true
  | _ => false

/-- The per-entry outcome of the evaluation loop, read off the source's
branching: the wrong-key message when a field is missing, the
no-recording message when resolution fails, nothing when the entry is
inserted. -/
def entryErr (db : DB) (eval_set : String) (e : JVal) : Option String :=
  match evalFields e with
  | .error _ => some "Some evaluation data not on correct format, wrong key."
  | .ok (_, sid, rf, _, _, _) =>
    match evalResolve db eval_set sid rf with
    | some _ => none
    | none => some "Could not find a recording with some data."

/-- Whether one entry leads to an `evaluation` insert. -/
def entryInserts (db : DB) (eval_set : String) (e : JVal) : Bool :=
  match evalFields e with
  | .error _ => false
  | .ok (_, sid, rf, _, _, _) => (evalResolve db eval_set sid rf).isSome

/-- The recording ids of the entries that resolve, in batch order. -/
def resolvedIds (db : DB) (eval_set : String) (entries : List JVal) : List Int :=
  entries.filterMap (fun e =>
    match evalFields e with
    | .ok (_, sid, rf, _, _, _) => evalResolve db eval_set sid rf
    | .error _ => none)

/-- The last per-entry error of a batch, threaded left to right from `acc`
exactly as the loop threads its `error` local. -/
def lastErrFrom (db : DB) (eval_set : String) : Option String → List JVal → Option String
  | acc, [] => acc
  | acc, e :: rest =>
    lastErrFrom db eval_set
      (match entryErr db eval_set e with | some m => some m | none => acc) rest

/-- A concrete database for evaluation witnesses: one recording (id 5, in
session 7, filename a.wav) that belongs to the materialized set s1. -/
def dbEval : DB :=
  ⟨[], [], [], [], [⟨1, "hello", true⟩], [], [⟨5, .jnum 1, 2, 7, "a.wav"⟩],
    [⟨1, "s1", 5⟩], []⟩

/-- A concrete database for the Random-slice witness: four recordings (id 1
is the placeholder), each with its own token. -/
def dbC6 : DB :=
  ⟨[], [], [], [],
    [⟨1, "t1", true⟩, ⟨2, "t2", true⟩, ⟨3, "t3", true⟩, ⟨4, "t4", true⟩], [],
    [⟨1, .jnum 1, 1, 1, "p.wav"⟩, ⟨2, .jnum 2, 1, 1, "a.wav"⟩,
     ⟨3, .jnum 3, 1, 1, "b.wav"⟩, ⟨4, .jnum 4, 1, 2, "c.wav"⟩], [], []⟩

/-- A concrete sampler satisfying the `random.sample` contract on this pool:
take the first `k` elements. -/
def sampleTake : List Int → Nat → List Int := fun pool k => pool.take k

/-- A submission whose first recording is fine (token 1 exists) and whose
second names a missing token, so the error flag rises only after the first
write. -/
def jdC2 : JVal := .jobj [("type", .jstr "session"), ("data", .jobj [
  ("speakerInfo", .jobj [("name", .jstr "bob")]),
  ("instructorId", .jnum 7),
  ("deviceInfo", .jobj [("userAgent", .jstr "UA")]),
  ("location", .jstr "here"),
  ("start", .jstr "st"),
  ("end", .jstr "en"),
  ("comments", .jstr "cm"),
  ("recordingsInfo", .jobj [
     ("a.wav", .jobj [("tokenId", .jnum 1)]),
     ("b.wav", .jobj [("tokenId", .jnum 99)])])])]

/-- The filesystem component of a loop outcome. -/
def fsOfLoop : LoopRes → List FsFile
  | .done _ _ fs => fs
  | .raised _ fs => fs

/-- A submission whose identity phase fails (speakerInfo lacks `name`) and
whose single recording entry carries only a `tokenId`: the cursor is never
bound and the loop needs it. -/
def jdC1 : JVal := .jobj [("type", .jstr "session"), ("data", .jobj [
  ("speakerInfo", .jobj []),
  ("recordingsInfo", .jobj [("a.wav", .jobj [("tokenId", .jnum 1)])])])]

/-- The same failing submission with an inline `tokenText` on its entry, so
the loop can write without the cursor. -/
def jdC1w : JVal := .jobj [("type", .jstr "session"), ("data", .jobj [
  ("speakerInfo", .jobj []),
  ("recordingsInfo", .jobj [("a.wav", .jobj [
     ("tokenId", .jnum 1), ("tokenText", .jstr "hi")])])])]

/-! ## Helper lemmas -/

/-- Scalar (non-container) dynamic values: those whose structural equality is
reflexive by case analysis. -/
def isScalar : JVal → Bool
  | .jnull => true
  | .jbool _ => true
  | .jnum _ => true
  | .jstr _ => true
  | .jarr _ => false
  | .jobj _ => false

theorem jvalBeq_refl {v : JVal} (h : isScalar v = true) : jvalBeq v v = true := by
  cases v with
  | jnull => rfl
  | jbool b => simp [jvalBeq]
  | jnum n => simp [jvalBeq]
  | jstr s => simp [jvalBeq]
  | jarr xs => simp [isScalar] at h
  | jobj fields => simp [isScalar] at h

theorem sqlEq_refl {v : JVal} (h : isScalar v = true) (hn : v ≠ .jnull) :
    sqlEq v v = true := by
  cases v with
  | jnull => exact absurd rfl hn
  | jbool b => simp [sqlEq, jvalBeq]
  | jnum n => simp [sqlEq, jvalBeq]
  | jstr s => simp [sqlEq, jvalBeq]
  | jarr xs => exact absurd h (by simp [isScalar])
  | jobj fields => exact absurd h (by simp [isScalar])

theorem find?_append_none {α : Type} (p : α → Bool) (l1 l2 : List α)
    (h : l1.find? p = none) : (l1 ++ l2).find? p = l2.find? p := by
  induction l1 with
  | nil => rfl
  | cons x xs ih =>
    rw [List.find?_cons] at h
    rw [List.cons_append, List.find?_cons]
    rcases hx : p x with _ | _
    · simp only [hx] at h ⊢
      exact ih h
    · simp [hx] at h

theorem jvalBeq_jstr_iff {v : JVal} {s : String} :
    jvalBeq v (.jstr s) = true ↔ v = .jstr s := by
  cases v <;> simp [jvalBeq]

theorem jvalBeq_jnull_iff {v : JVal} : jvalBeq v .jnull = true ↔ v = .jnull := by
  cases v <;> simp [jvalBeq]

theorem lookup_some_mem {β : Type} {l : List (String × β)} {k : String} {v : β}
    (h : l.lookup k = some v) : (k, v) ∈ l := by
  induction l with
  | nil => cases h
  | cons p rest ih =>
    obtain ⟨a, b⟩ := p
    simp only [List.lookup] at h
    split at h
    · next heq =>
      have : k = a := by simpa using heq
      injection h with h
      subst this h
      exact List.mem_cons_self _ _
    · exact List.mem_cons_of_mem _ (ih h)

theorem lookup_of_mem_nodup {β : Type} {l : List (String × β)} {k : String} {v : β}
    (hmem : (k, v) ∈ l) (hnodup : (l.map Prod.fst).Nodup) : l.lookup k = some v := by
  induction l with
  | nil => cases hmem
  | cons p rest ih =>
    obtain ⟨a, b⟩ := p
    rcases List.mem_cons.mp hmem with heq | hmem2
    · injection heq with h1 h2
      subst h1
      subst h2
      simp [List.lookup]
    · have hka : k ≠ a := by
        intro hcontra
        subst hcontra
        have hkin : k ∈ rest.map Prod.fst := List.mem_map.mpr ⟨(k, v), hmem2, rfl⟩
        exact (List.nodup_cons.mp hnodup).1 hkin
      have hbeq : (k == a) = false := by simpa using hka
      simp only [List.lookup, hbeq]
      exact ih hmem2 (List.nodup_cons.mp hnodup).2

theorem lookup_none_key {β : Type} {l : List (String × β)} {k : String}
    (h : l.lookup k = none) : ∀ p ∈ l, p.1 ≠ k := by
  induction l with
  | nil => intro p hp; cases hp
  | cons q rest ih =>
    obtain ⟨a, b⟩ := q
    intro p hp
    simp only [List.lookup] at h
    split at h
    · cases h
    · next hne =>
      rcases List.mem_cons.mp hp with rfl | hp2
      · intro hcontra
        subst hcontra
        simp at hne
      · exact ih h p hp2

theorem le_foldr_max (ids : List Int) : ∀ i ∈ ids, i ≤ ids.foldr max 0 := by
  induction ids with
  | nil => simp
  | cons a as ih =>
    intro i hi
    rw [List.foldr_cons]
    rcases List.mem_cons.mp hi with rfl | hi
    · exact le_max_left _ _
    · exact le_trans (ih i hi) (le_max_right _ _)

theorem foldl_max_eq {x : Int} :
    ∀ (as : List Int) (a : Int), (x = a ∨ x ∈ as) → (∀ y ∈ as, y ≤ x) → a ≤ x →
      as.foldl max a = x := by
  intro as
  induction as with
  | nil =>
    intro a h _ hle
    rcases h with rfl | h
    · rfl
    · cases h
  | cons b bs ih =>
    intro a h hall hle
    rw [List.foldl_cons]
    have hbx : b ≤ x := hall b (List.mem_cons_self _ _)
    apply ih
    · rcases h with rfl | h
      · exact Or.inl (max_eq_left hbx).symm
      · rcases List.mem_cons.mp h with rfl | h
        · exact Or.inl (max_eq_right hle).symm
        · exact Or.inr h
    · intro y hy
      exact hall y (List.mem_cons_of_mem _ hy)
    · exact max_le hle hbx

theorem max?_eq_of_mem_le {l : List Int} {x : Int} (hm : x ∈ l) (hle : ∀ y ∈ l, y ≤ x) :
    l.max? = some x := by
  cases l with
  | nil => cases hm
  | cons a as =>
    have : (a :: as).max? = some (as.foldl max a) := rfl
    rw [this]
    congr 1
    apply foldl_max_eq as a
    · rcases List.mem_cons.mp hm with rfl | hm2
      · exact Or.inl rfl
      · exact Or.inr hm2
    · intro y hy
      exact hle y (List.mem_cons_of_mem _ hy)
    · exact hle a (List.mem_cons_self _ _)

theorem jvalEqInt_iff {v : JVal} {i : Int} :
    jvalEqInt v i = true ↔ v = .jnum i := by
  cases v <;> simp [jvalEqInt, jvalBeq]

/-! ## Claim theorems -/


/-- C10: a `processSessionData` call whose `recordings` argument is not a
list, or is the empty list, answers 400 (`'No recordings received,
aborting.'`) immediately, with the database and the filesystem returned
exactly as they were — no identity resolution, relational write or
filesystem write happens. -/
theorem C10_earlyReject (recordingsPath : String) (db : DB) (fs : List FsFile)
    (jsonData : Option JVal) (recordings : RecordingsArg)
    (h : recordings = .notList ∨ recordings = .ofList []) :
    processSessionData recordingsPath db fs jsonData recordings =
      (.ok ⟨.plain "No recordings received, aborting.", 400⟩, db, fs) := by
  rcases h with h | h <;> subst h <;> rfl

/-- Witness for C10 at a concrete call. -/
theorem C10_earlyReject_witness :
    processSessionData "recs" dbTok [] none .notList =
      (.ok ⟨.plain "No recordings received, aborting.", 400⟩, dbTok, []) :=
  C10_earlyReject "recs" dbTok [] none .notList (Or.inl rfl)

/-- C7: `getRecordingCount` returns exactly the maximum of the
by-name-and-device count and the by-resolved-id count: it is bounded below
by both counts (never the smaller when they differ) and coincides with one
of them. -/
theorem C7_getRecordingCount (db : DB) (speakerName : JVal) (speakerId deviceId : Int) :
    getRecordingCount db speakerName speakerId deviceId =
        max (Int.ofNat (recCountByName db speakerName deviceId))
          (Int.ofNat (recCountById db speakerId)) ∧
      Int.ofNat (recCountByName db speakerName deviceId) ≤
        getRecordingCount db speakerName speakerId deviceId ∧
      Int.ofNat (recCountById db speakerId) ≤
        getRecordingCount db speakerName speakerId deviceId ∧
      (getRecordingCount db speakerName speakerId deviceId =
          Int.ofNat (recCountByName db speakerName deviceId) ∨
        getRecordingCount db speakerName speakerId deviceId =
          Int.ofNat (recCountById db speakerId)) := by
  refine ⟨rfl, le_max_left _ _, le_max_right _ _, ?_⟩
  exact max_choice _ _


theorem sessionUpsert_key_unfold (sessions : List SessionRow) (v : SessionVals) :
    sessionUpsert sessions v =
      (match sessions.find? (sessionKeyMatch v) with
      | some r =>
        .ok (sessions.map (fun s => if s.id == r.id then { s with sessEnd := v.sessEnd } else s),
          r.id)
      | none =>
        let newId := freshId (sessions.map SessionRow.id)
        let sessions1 := sessions ++
          [⟨newId, v.speakerId, v.instructorId, v.deviceId, v.location, v.start, v.sessEnd,
            v.comments⟩]
        match sessions1.find? (fun r => sessionKeyMatch v r && sqlEq r.sessEnd v.sessEnd) with
        | some r2 => .ok (sessions1, r2.id)
        | none => .error .typeError) := rfl

/-- C3: the session upsert.  On a hit of the identity key
(speakerId, instructorId, deviceId, location, start): the table keeps its
length (no second row) and rowwise only `sessEnd` changes, and only on the
matched id — every other field, `comments` included, is preserved.  On a
miss (with non-null scalar key fields and end): the table becomes the old
table plus exactly one full new row carrying every submitted field including
`comments`, and the new row's id is returned. -/
theorem C3_sessionUpsert (sessions : List SessionRow) (v : SessionVals)
    (hsc : isScalar v.instructorId = true ∧ isScalar v.location = true ∧
      isScalar v.start = true ∧ isScalar v.sessEnd = true)
    (hnn : v.instructorId ≠ .jnull ∧ v.location ≠ .jnull ∧
      v.start ≠ .jnull ∧ v.sessEnd ≠ .jnull) :
    (∀ r, sessions.find? (sessionKeyMatch v) = some r →
      ∃ tbl, sessionUpsert sessions v = .ok (tbl, r.id) ∧
        tbl.length = sessions.length ∧
        List.Forall₂ (fun s s' => s'.id = s.id ∧ s'.speakerId = s.speakerId ∧
          s'.instructorId = s.instructorId ∧ s'.deviceId = s.deviceId ∧
          s'.location = s.location ∧ s'.start = s.start ∧ s'.comments = s.comments ∧
          s'.sessEnd = (if s.id = r.id then v.sessEnd else s.sessEnd)) sessions tbl) ∧
    (sessions.find? (sessionKeyMatch v) = none →
      sessionUpsert sessions v =
        .ok (sessions ++
          [⟨freshId (sessions.map SessionRow.id), v.speakerId, v.instructorId, v.deviceId,
            v.location, v.start, v.sessEnd, v.comments⟩],
          freshId (sessions.map SessionRow.id))) := by
  obtain ⟨hsc1, hsc2, hsc3, hsc4⟩ := hsc
  obtain ⟨hnn1, hnn2, hnn3, hnn4⟩ := hnn
  constructor
  · intro r hfind
    refine ⟨sessions.map (fun s => if s.id == r.id then { s with sessEnd := v.sessEnd } else s),
      ?_, ?_, ?_⟩
    · rw [sessionUpsert_key_unfold, hfind]
    · simp
    · rw [List.forall₂_map_right_iff]
      rw [List.forall₂_same]
      intro s _
      by_cases h : s.id = r.id
      · simp [h]
      · have hb : (s.id == r.id) = false := by simp [h]
        simp [hb, h]
  · intro hfind
    have hall := List.find?_eq_none.mp hfind
    have hleft : sessions.find? (fun r => sessionKeyMatch v r && sqlEq r.sessEnd v.sessEnd)
        = none := by
      rw [List.find?_eq_none]
      intro x hx
      simp only [Bool.and_eq_true]
      rintro ⟨hk, -⟩
      exact absurd hk (by simpa using hall x hx)
    have hnew : sessionKeyMatch v
        ⟨freshId (sessions.map SessionRow.id), v.speakerId, v.instructorId, v.deviceId,
          v.location, v.start, v.sessEnd, v.comments⟩ = true := by
      simp [sessionKeyMatch, sqlEq_refl hsc1 hnn1, sqlEq_refl hsc2 hnn2, sqlEq_refl hsc3 hnn3]
    simp only [sessionUpsert_key_unfold, hfind]
    rw [find?_append_none _ _ _ hleft]
    simp only [List.find?_cons]
    simp [hnew, sqlEq_refl hsc4 hnn4]

/-- Witness for C3: both branches at concrete inputs — updating the one
matching row in place, and appending a fresh full row on a miss. -/
theorem C3_sessionUpsert_witness :
    (∃ tbl,
      sessionUpsert [⟨1, 10, .jnum 7, 20, .jstr "L", .jstr "S", .jstr "E0", .jstr "C"⟩]
        ⟨10, .jnum 7, 20, .jstr "L", .jstr "S", .jstr "E1", .jstr "Cnew"⟩ = .ok (tbl, 1) ∧
      tbl.length = 1) ∧
    sessionUpsert [] ⟨10, .jnum 7, 20, .jstr "L", .jstr "S", .jstr "E1", .jstr "C"⟩ =
      .ok ([⟨1, 10, .jnum 7, 20, .jstr "L", .jstr "S", .jstr "E1", .jstr "C"⟩], 1) := by
  constructor
  · obtain ⟨tbl, h1, h2, -⟩ :=
      (C3_sessionUpsert [⟨1, 10, .jnum 7, 20, .jstr "L", .jstr "S", .jstr "E0", .jstr "C"⟩]
        ⟨10, .jnum 7, 20, .jstr "L", .jstr "S", .jstr "E1", .jstr "Cnew"⟩
        ⟨rfl, rfl, rfl, rfl⟩
        ⟨fun h => JVal.noConfusion h, fun h => JVal.noConfusion h,
          fun h => JVal.noConfusion h, fun h => JVal.noConfusion h⟩).1
        ⟨1, 10, .jnum 7, 20, .jstr "L", .jstr "S", .jstr "E0", .jstr "C"⟩ rfl
    exact ⟨tbl, h1, h2⟩
  · exact (C3_sessionUpsert [] ⟨10, .jnum 7, 20, .jstr "L", .jstr "S", .jstr "E1", .jstr "C"⟩
      ⟨rfl, rfl, rfl, rfl⟩
      ⟨fun h => JVal.noConfusion h, fun h => JVal.noConfusion h,
        fun h => JVal.noConfusion h, fun h => JVal.noConfusion h⟩).2 rfl

/-- The generic insert on well-formed input: allow-listed, non-empty,
duplicate-free keys, non-null scalar values.  The new row gets the next
AUTO_INCREMENT id, the re-select finds it (it matches itself, and its id is
the maximum among any older duplicates), and the transaction commits. -/
theorem insertGeneralData_ok (name : String) (fields : List (String × JVal)) (table : List Row)
    (hallow : fields.all (fun kv => (allowedColumnNames name).contains kv.1) = true)
    (hne : fields ≠ [])
    (hnodup : (fields.map Prod.fst).Nodup)
    (hvals : ∀ kv ∈ fields, isScalar kv.2 = true ∧ kv.2 ≠ .jnull) :
    insertGeneralData name (.jobj fields) table =
      .ok (⟨.idMsg name (.jnum (freshId (table.map Row.id))), 200⟩,
        table ++ [⟨freshId (table.map Row.id), fields⟩]) := by
  have hmatch : (fields.all
      (fun kv => sqlEq (getCol ⟨freshId (table.map Row.id), fields⟩ kv.1) kv.2)) = true := by
    rw [List.all_eq_true]
    intro kv hkv
    have hlu : fields.lookup kv.1 = some kv.2 := by
      obtain ⟨k, v⟩ := kv
      exact lookup_of_mem_nodup hkv hnodup
    show sqlEq (getCol ⟨freshId (table.map Row.id), fields⟩ kv.1) kv.2 = true
    rw [getCol]
    show sqlEq ((fields.lookup kv.1).getD .jnull) kv.2 = true
    rw [hlu]
    exact sqlEq_refl (hvals kv hkv).1 (hvals kv hkv).2
  have hempty : fields.isEmpty = false := by
    cases fields with
    | nil => exact absurd rfl hne
    | cons a as => rfl
  have hmax : (((table ++ [(⟨freshId (table.map Row.id), fields⟩ : Row)]).filter
      (fun r => fields.all (fun kv => sqlEq (getCol r kv.1) kv.2))).map Row.id).max? =
      some (freshId (table.map Row.id)) := by
    apply max?_eq_of_mem_le
    · apply List.mem_map.mpr
      refine ⟨(⟨freshId (table.map Row.id), fields⟩ : Row), ?_, rfl⟩
      apply List.mem_filter.mpr
      exact ⟨List.mem_append_right _ (List.mem_singleton_self _), hmatch⟩
    · intro y hy
      obtain ⟨r, hr, rfl⟩ := List.mem_map.mp hy
      have hr2 := (List.mem_filter.mp hr).1
      rcases List.mem_append.mp hr2 with hl | hr3
      · have : r.id ∈ table.map Row.id := List.mem_map.mpr ⟨r, hl, rfl⟩
        have hle := le_foldr_max (table.map Row.id) r.id this
        unfold freshId
        omega
      · rcases List.mem_singleton.mp hr3 with rfl
        exact le_refl _
  show insertGeneralData name (.jobj fields) table = _
  unfold insertGeneralData
  simp only [hallow, hempty, if_true, if_false, Bool.false_eq_true]
  simp only [hmax]

/-- C9: `processInstructorData`.  With an `id` key in the document: a hit
returns the stored id with a 200 and never touches the table; a miss answers
400 (`'No instructor with that id.'`) and inserts nothing — the id path
never falls back to insertion.  Without an `id` key (and with well-formed
insertable fields) exactly one new Instructor row is appended and its fresh
id is returned. -/
theorem C9_resolveInstructor (instructor : List Row) (fields : List (String × JVal)) :
    (∀ idv r, fields.lookup "id" = some idv →
      instructor.find? (fun row => jvalEqInt idv row.id) = some r →
      processInstructorData instructor (.jobj fields) =
        .ok (⟨.idMsg "instructor" (.jnum r.id), 200⟩, instructor)) ∧
    (∀ idv, fields.lookup "id" = some idv →
      instructor.find? (fun row => jvalEqInt idv row.id) = none →
      processInstructorData instructor (.jobj fields) =
        .ok (⟨.plain "No instructor with that id.", 400⟩, instructor)) ∧
    (fields.lookup "id" = none →
      fields.all (fun kv => (allowedColumnNames "instructor").contains kv.1) = true →
      fields ≠ [] →
      (fields.map Prod.fst).Nodup →
      (∀ kv ∈ fields, isScalar kv.2 = true ∧ kv.2 ≠ .jnull) →
      processInstructorData instructor (.jobj fields) =
        .ok (⟨.idMsg "instructor" (.jnum (freshId (instructor.map Row.id))), 200⟩,
          instructor ++ [⟨freshId (instructor.map Row.id), fields⟩])) := by
  refine ⟨?_, ?_, ?_⟩
  · intro idv r hlu hfind
    have hany : fields.any (fun kv => kv.1 == "id") = true := by
      rw [List.any_eq_true]
      exact ⟨("id", idv), lookup_some_mem hlu, by simp⟩
    simp only [processInstructorData, pyContainsId, hany, if_true, pyGet, hlu, hfind]
  · intro idv hlu hfind
    have hany : fields.any (fun kv => kv.1 == "id") = true := by
      rw [List.any_eq_true]
      exact ⟨("id", idv), lookup_some_mem hlu, by simp⟩
    simp only [processInstructorData, pyContainsId, hany, if_true, pyGet, hlu, hfind]
  · intro hlu hallow hne hnodup hvals
    have hany : fields.any (fun kv => kv.1 == "id") = false := by
      rw [List.any_eq_false]
      intro kv hkv
      have := lookup_none_key hlu kv hkv
      simpa using this
    simp only [processInstructorData, pyContainsId, hany]
    show insertGeneralData "instructor" (.jobj fields) instructor = _
    exact insertGeneralData_ok "instructor" fields instructor hallow hne hnodup hvals

/-- Witness for C9: all three branches at concrete inputs. -/
theorem C9_resolveInstructor_witness :
    processInstructorData [⟨3, [("name", .jstr "ada")]⟩] (.jobj [("id", .jnum 3)]) =
      .ok (⟨.idMsg "instructor" (.jnum 3), 200⟩, [⟨3, [("name", .jstr "ada")]⟩]) ∧
    processInstructorData [⟨3, [("name", .jstr "ada")]⟩] (.jobj [("id", .jnum 9)]) =
      .ok (⟨.plain "No instructor with that id.", 400⟩, [⟨3, [("name", .jstr "ada")]⟩]) ∧
    processInstructorData [⟨3, [("name", .jstr "ada")]⟩] (.jobj [("name", .jstr "bo")]) =
      .ok (⟨.idMsg "instructor" (.jnum 4), 200⟩,
        [⟨3, [("name", .jstr "ada")]⟩, ⟨4, [("name", .jstr "bo")]⟩]) := by
  refine ⟨?_, ?_, ?_⟩
  · exact (C9_resolveInstructor [⟨3, [("name", .jstr "ada")]⟩] [("id", .jnum 3)]).1
      (.jnum 3) ⟨3, [("name", .jstr "ada")]⟩ rfl rfl
  · exact (C9_resolveInstructor [⟨3, [("name", .jstr "ada")]⟩] [("id", .jnum 9)]).2.1
      (.jnum 9) rfl rfl
  · exact (C9_resolveInstructor [⟨3, [("name", .jstr "ada")]⟩] [("name", .jstr "bo")]).2.2
      rfl rfl (by intro h; cases h) (by simp)
      (by intro kv hkv; rcases List.mem_singleton.mp hkv with rfl
          exact ⟨rfl, fun h => JVal.noConfusion h⟩)

/-- C4: `processDeviceData` on a document with a non-empty `imei`.  (a) If no
device row matches the imei (never-seen), exactly one new Device row is
appended — carrying the submitted fields minus `deviceId` — and its fresh id
is returned; the new row matches the imei, so later lookups find it.  (b) If
a row matches, the call returns the first matching row's stored id and the
table is unchanged — nothing is inserted. -/
theorem C4_resolveDevice (device : List Row) (fields : List (String × JVal)) (ua imei : JVal)
    (hua : fields.lookup "userAgent" = some ua)
    (himei : fields.lookup "imei" = some imei)
    (hnn : imei ≠ .jnull) (hne : imei ≠ .jstr "") :
    (device.find? (fun r => sqlEq (getCol r "imei") imei) = none →
      fields.all (fun kv => kv.1 == "userAgent" || kv.1 == "imei" || kv.1 == "deviceId") = true →
      (fields.map Prod.fst).Nodup →
      (∀ kv ∈ fields, isScalar kv.2 = true ∧ kv.2 ≠ .jnull) →
      processDeviceData device (.jobj fields) =
        .ok (⟨.idMsg "device" (.jnum (freshId (device.map Row.id))), 200⟩,
          device ++
            [⟨freshId (device.map Row.id), fields.filter (fun kv => kv.1 != "deviceId")⟩]) ∧
      sqlEq (getCol (⟨freshId (device.map Row.id),
        fields.filter (fun kv => kv.1 != "deviceId")⟩ : Row) "imei") imei = true) ∧
    (∀ r, device.find? (fun r => sqlEq (getCol r "imei") imei) = some r →
      processDeviceData device (.jobj fields) =
        .ok (⟨.idMsg "device" (.jnum r.id), 200⟩, device)) := by
  have hb1 : jvalBeq imei .jnull = false := by
    rcases hb : jvalBeq imei .jnull with _ | _
    · rfl
    · exact absurd (jvalBeq_jnull_iff.mp hb) hnn
  have hb2 : jvalBeq imei (.jstr "") = false := by
    rcases hb : jvalBeq imei (.jstr "") with _ | _
    · rfl
    · exact absurd (jvalBeq_jstr_iff.mp hb) hne
  constructor
  · intro hfind hkeys hnodup hvals
    have hfilter_allow : (fields.filter (fun kv => kv.1 != "deviceId")).all
        (fun kv => (allowedColumnNames "device").contains kv.1) = true := by
      rw [List.all_eq_true]
      intro kv hkv
      obtain ⟨k, v⟩ := kv
      have hmem := List.mem_of_mem_filter hkv
      have hkey := (List.mem_filter.mp hkv).2
      have hk3 := List.all_eq_true.mp hkeys _ hmem
      simp only [Bool.or_eq_true, beq_iff_eq] at hk3
      simp only [bne_iff_ne, ne_eq] at hkey
      rcases hk3 with (h | h) | h
      · subst h; rfl
      · subst h; rfl
      · exact absurd h hkey
    have huaf : ("userAgent", ua) ∈ fields.filter (fun kv => kv.1 != "deviceId") := by
      apply List.mem_filter.mpr
      exact ⟨lookup_some_mem hua, by simp⟩
    have himf : ("imei", imei) ∈ fields.filter (fun kv => kv.1 != "deviceId") := by
      apply List.mem_filter.mpr
      exact ⟨lookup_some_mem himei, by simp⟩
    have hfilter_nodup : ((fields.filter (fun kv => kv.1 != "deviceId")).map Prod.fst).Nodup := by
      apply List.Nodup.sublist _ hnodup
      exact List.Sublist.map Prod.fst (List.filter_sublist fields)
    have hfilter_vals : ∀ kv ∈ fields.filter (fun kv => kv.1 != "deviceId"),
        isScalar kv.2 = true ∧ kv.2 ≠ .jnull :=
      fun kv hkv => hvals kv (List.mem_of_mem_filter hkv)
    have hins := insertGeneralData_ok "device" (fields.filter (fun kv => kv.1 != "deviceId"))
      device hfilter_allow (List.ne_nil_of_mem huaf) hfilter_nodup hfilter_vals
    constructor
    · simp only [processDeviceData, pyGet, hua, jsonGet?, himei, hb1, hb2, hfind,
        Bool.not_false, Bool.and_self, if_true]
      exact hins
    · show sqlEq (((fields.filter (fun kv => kv.1 != "deviceId")).lookup "imei").getD .jnull)
        imei = true
      rw [lookup_of_mem_nodup himf hfilter_nodup]
      have hsc := hvals ("imei", imei) (lookup_some_mem himei)
      exact sqlEq_refl hsc.1 hsc.2
  · intro r hfind
    simp only [processDeviceData, pyGet, hua, jsonGet?, himei, hb1, hb2, hfind,
      Bool.not_false, Bool.and_self, if_true]

/-- Witness for C4: a first call with a never-seen imei inserts the one row
with id 1; a later call with the same imei (different userAgent and a stray
deviceId) returns the same id 1 and leaves the table unchanged. -/
theorem C4_resolveDevice_witness :
    processDeviceData [] (.jobj [("userAgent", .jstr "UA"), ("imei", .jstr "123")]) =
      .ok (⟨.idMsg "device" (.jnum 1), 200⟩,
        [⟨1, [("userAgent", .jstr "UA"), ("imei", .jstr "123")]⟩]) ∧
    processDeviceData [⟨1, [("userAgent", .jstr "UA"), ("imei", .jstr "123")]⟩]
        (.jobj [("userAgent", .jstr "UA2"), ("imei", .jstr "123"), ("deviceId", .jnum 77)]) =
      .ok (⟨.idMsg "device" (.jnum 1), 200⟩,
        [⟨1, [("userAgent", .jstr "UA"), ("imei", .jstr "123")]⟩]) := by
  constructor
  · exact ((C4_resolveDevice [] [("userAgent", .jstr "UA"), ("imei", .jstr "123")]
      (.jstr "UA") (.jstr "123") rfl rfl
      (fun h => JVal.noConfusion h)
      (by intro h; injection h with h2; exact absurd h2 (by decide))).1
      rfl (by decide) (by decide)
      (by intro kv hkv
          rcases List.mem_cons.mp hkv with rfl | hkv2
          · exact ⟨rfl, fun h => JVal.noConfusion h⟩
          · rcases List.mem_singleton.mp hkv2 with rfl
            exact ⟨rfl, fun h => JVal.noConfusion h⟩)).1
  · exact (C4_resolveDevice [⟨1, [("userAgent", .jstr "UA"), ("imei", .jstr "123")]⟩]
      [("userAgent", .jstr "UA2"), ("imei", .jstr "123"), ("deviceId", .jnum 77)]
      (.jstr "UA2") (.jstr "123") rfl rfl
      (fun h => JVal.noConfusion h)
      (by intro h; injection h with h2; exact absurd h2 (by decide))).2
      ⟨1, [("userAgent", .jstr "UA"), ("imei", .jstr "123")]⟩ rfl

/-! ## C5: the evaluation batch -/






theorem pyGet_jobj_cases (fields : List (String × JVal)) (k : String) :
    (∃ v, pyGet (.jobj fields) k = .ok v) ∨ pyGet (.jobj fields) k = .error .keyError := by
  cases hlu : fields.lookup k with
  | none => exact Or.inr (by simp [pyGet, hlu])
  | some v => exact Or.inl ⟨v, by simp [pyGet, hlu]⟩

theorem evalFields_keyError {e : JVal} (ho : isObj e = true) {err : PyErr}
    (h : evalFields e = .error err) : err = .keyError := by
  cases e with
  | jobj fields =>
    simp only [evalFields] at h
    rcases pyGet_jobj_cases fields "evaluator" with ⟨v1, h1⟩ | h1 <;> rw [h1] at h
    · rcases pyGet_jobj_cases fields "sessionId" with ⟨v2, h2⟩ | h2 <;> rw [h2] at h
      · rcases pyGet_jobj_cases fields "recordingFilename" with ⟨v3, h3⟩ | h3 <;> rw [h3] at h
        · rcases pyGet_jobj_cases fields "grade" with ⟨v4, h4⟩ | h4 <;> rw [h4] at h
          · rcases pyGet_jobj_cases fields "comments" with ⟨v5, h5⟩ | h5 <;> rw [h5] at h
            · rcases pyGet_jobj_cases fields "skipped" with ⟨v6, h6⟩ | h6 <;> rw [h6] at h
              · cases h
              · injection h with h
                exact h.symm
            · injection h with h
              exact h.symm
          · injection h with h
            exact h.symm
        · injection h with h
          exact h.symm
      · injection h with h
        exact h.symm
    · injection h with h
      exact h.symm
  | jnull => simp [isObj] at ho
  | jbool b => simp [isObj] at ho
  | jnum n => simp [isObj] at ho
  | jstr s => simp [isObj] at ho
  | jarr xs => simp [isObj] at ho

theorem lastErrFrom_acc (db : DB) (eval_set : String) :
    ∀ (rest : List JVal) (acc : Option String),
      lastErrFrom db eval_set acc rest =
        (match lastErrFrom db eval_set none rest with
          | some m => some m
          | none => acc) := by
  intro rest
  induction rest with
  | nil => intro acc; rfl
  | cons e r ih =>
    intro acc
    have lhs : lastErrFrom db eval_set acc (e :: r) =
        lastErrFrom db eval_set
          (match entryErr db eval_set e with | some m => some m | none => acc) r := rfl
    have rhs : lastErrFrom db eval_set none (e :: r) =
        lastErrFrom db eval_set
          (match entryErr db eval_set e with | some m => some m | none => none) r := rfl
    rw [lhs, rhs,
      ih (match entryErr db eval_set e with | some m => some m | none => acc),
      ih (match entryErr db eval_set e with | some m => some m | none => none)]
    cases lastErrFrom db eval_set none r <;> cases entryErr db eval_set e <;> rfl

theorem entryErr_ne_empty (db : DB) (es : String) (e : JVal) :
    ∀ m, entryErr db es e = some m → m ≠ "" := by
  intro m h
  rcases hef : evalFields e with err | tup
  · simp only [entryErr, hef] at h
    injection h with h
    subst h
    decide
  · obtain ⟨ev, sid, rf, g, c, sk⟩ := tup
    simp only [entryErr, hef] at h
    rcases hres : evalResolve db es sid rf with _ | rid
    · simp only [hres] at h
      injection h with h
      subst h
      decide
    · simp only [hres] at h
      cases h

theorem lastErrFrom_ne_empty (db : DB) (es : String) :
    ∀ (entries : List JVal) (acc : Option String),
      (∀ m, acc = some m → m ≠ "") →
      ∀ m, lastErrFrom db es acc entries = some m → m ≠ "" := by
  intro entries
  induction entries with
  | nil =>
    intro acc hacc m h
    exact hacc m h
  | cons e r ih =>
    intro acc hacc m h
    apply ih _ _ m h
    intro m2 h2
    rcases he : entryErr db es e with _ | m3
    · rw [he] at h2
      exact hacc m2 h2
    · rw [he] at h2
      injection h2 with h2
      subst h2
      exact entryErr_ne_empty db es e m3 he

theorem evalLoop_spec (db : DB) (eval_set : String) :
    ∀ (entries : List JVal) (error : String) (code : Nat) (pending : List EvaluationRow),
    (∀ e ∈ entries, isObj e = true) →
    ∃ pendingNew,
      evalLoop db eval_set entries error code pending =
        .ok ((lastErrFrom db eval_set none entries).getD error,
          (match lastErrFrom db eval_set none entries with | some _ => 400 | none => code),
          pending ++ pendingNew) ∧
      pendingNew.map EvaluationRow.recordingId = resolvedIds db eval_set entries ∧
      pendingNew.length = (entries.filter (entryInserts db eval_set)).length := by
  intro entries
  induction entries with
  | nil =>
    intro error code pending _
    exact ⟨[], by simp [evalLoop, lastErrFrom, resolvedIds], by simp [resolvedIds], rfl⟩
  | cons e rest ih =>
    intro error code pending hobj
    have hobje := hobj e (List.mem_cons_self _ _)
    have hobjr : ∀ x ∈ rest, isObj x = true := fun x hx => hobj x (List.mem_cons_of_mem _ hx)
    cases hef : evalFields e with
    | error err =>
      have herr := evalFields_keyError hobje hef
      subst herr
      have hstep : evalLoop db eval_set (e :: rest) error code pending =
          evalLoop db eval_set rest
            "Some evaluation data not on correct format, wrong key." 400 pending := by
        simp [evalLoop, hef]
      have hent : entryErr db eval_set e =
          some "Some evaluation data not on correct format, wrong key." := by
        simp [entryErr, hef]
      obtain ⟨pn, h1, h2, h3⟩ :=
        ih "Some evaluation data not on correct format, wrong key." 400 pending hobjr
      refine ⟨pn, ?_, ?_, ?_⟩
      · rw [hstep, h1]
        have hl : lastErrFrom db eval_set none (e :: rest) =
            (match lastErrFrom db eval_set none rest with
              | some m => some m
              | none =>
                some "Some evaluation data not on correct format, wrong key.") := by
          show lastErrFrom db eval_set _ rest = _
          rw [hent, lastErrFrom_acc]
        rw [hl]
        cases lastErrFrom db eval_set none rest <;> rfl
      · show pn.map EvaluationRow.recordingId = resolvedIds db eval_set (e :: rest)
        rw [h2]
        show resolvedIds db eval_set rest = _
        unfold resolvedIds
        rw [List.filterMap_cons]
        simp only [hef]
      · rw [h3]
        congr 1
        rw [List.filter_cons]
        have : entryInserts db eval_set e = false := by simp [entryInserts, hef]
        simp [this]
    | ok tup =>
      obtain ⟨ev, sid, rf, g, c, sk⟩ := tup
      cases hres : evalResolve db eval_set sid rf with
      | none =>
        have hstep : evalLoop db eval_set (e :: rest) error code pending =
            evalLoop db eval_set rest
              "Could not find a recording with some data." 400 pending := by
          simp [evalLoop, hef, hres]
        have hent : entryErr db eval_set e =
            some "Could not find a recording with some data." := by
          simp [entryErr, hef, hres]
        obtain ⟨pn, h1, h2, h3⟩ :=
          ih "Could not find a recording with some data." 400 pending hobjr
        refine ⟨pn, ?_, ?_, ?_⟩
        · rw [hstep, h1]
          have hl : lastErrFrom db eval_set none (e :: rest) =
              (match lastErrFrom db eval_set none rest with
                | some m => some m
                | none => some "Could not find a recording with some data.") := by
            show lastErrFrom db eval_set _ rest = _
            rw [hent, lastErrFrom_acc]
          rw [hl]
          cases lastErrFrom db eval_set none rest <;> rfl
        · rw [h2]
          show resolvedIds db eval_set rest = _
          unfold resolvedIds
          rw [List.filterMap_cons]
          simp only [hef, hres]
        · rw [h3]
          congr 1
          rw [List.filter_cons]
          have : entryInserts db eval_set e = false := by simp [entryInserts, hef, hres]
          simp [this]
      | some recId =>
        have hstep : evalLoop db eval_set (e :: rest) error code pending =
            evalLoop db eval_set rest error code (pending ++
              [⟨freshId ((db.evaluation ++ pending).map EvaluationRow.id), recId, eval_set,
                ev, g, c, sk⟩]) := by
          simp [evalLoop, hef, hres]
        have hent : entryErr db eval_set e = none := by
          simp [entryErr, hef, hres]
        obtain ⟨pn, h1, h2, h3⟩ := ih error code (pending ++
          [⟨freshId ((db.evaluation ++ pending).map EvaluationRow.id), recId, eval_set,
            ev, g, c, sk⟩]) hobjr
        refine ⟨⟨freshId ((db.evaluation ++ pending).map EvaluationRow.id), recId, eval_set,
          ev, g, c, sk⟩ :: pn, ?_, ?_, ?_⟩
        · rw [hstep, h1]
          have hl : lastErrFrom db eval_set none (e :: rest) =
              lastErrFrom db eval_set none rest := by
            show lastErrFrom db eval_set _ rest = _
            rw [hent]
          rw [hl, List.append_assoc]
          rfl
        · rw [List.map_cons, h2]
          show _ = resolvedIds db eval_set (e :: rest)
          unfold resolvedIds
          rw [List.filterMap_cons]
          simp [hef, hres]
        · rw [List.length_cons, h3]
          rw [List.filter_cons]
          have : entryInserts db eval_set e = true := by simp [entryInserts, hef, hres]
          simp [this]

/-- C5: `processEvaluation` on a parsed batch of dict entries.  The run
returns normally; the committed `evaluation` table is the old table plus one
row per successfully-resolved entry (in batch order, each carrying its
resolved recording id) — entries whose fields are missing or whose recording
does not resolve are skipped without stopping the others, and the valid ones
are committed regardless; the response is the success message when every
entry was valid, else the *last* per-entry error with status 400 (partial
failure, not total failure). -/
theorem C5_recordEvaluation (db : DB) (eval_set : String) (entries : List JVal)
    (hobj : ∀ e ∈ entries, isObj e = true) :
    ∃ pendingNew,
      processEvaluation db eval_set (.parsed entries) =
        .ok ((match lastErrFrom db eval_set none entries with
          | none => ("Successfully processed evaluation.", 200)
          | some m => (m, 400)),
          { db with evaluation := db.evaluation ++ pendingNew }) ∧
      pendingNew.map EvaluationRow.recordingId = resolvedIds db eval_set entries ∧
      pendingNew.length = (entries.filter (entryInserts db eval_set)).length := by
  obtain ⟨pn, h1, h2, h3⟩ := evalLoop_spec db eval_set entries "" 500 [] hobj
  refine ⟨pn, ?_, h2, h3⟩
  show processEvaluation db eval_set (.parsed entries) = _
  simp only [processEvaluation, h1]
  cases hl : lastErrFrom db eval_set none entries with
  | none => simp [hl]
  | some m =>
    have hm : m ≠ "" := lastErrFrom_ne_empty db eval_set entries none (by intro x hx; cases hx) m hl
    have hb : (m == "") = false := by
      rcases hbb : (m == "") with _ | _
      · rfl
      · exact absurd (by simpa using hbb) hm
    simp [hl, hb]


/-- Witness for C5: a batch with one valid and one invalid entry commits
exactly one Evaluation row and answers the last error with 400. -/
theorem C5_recordEvaluation_witness :
    ∃ pendingNew,
      processEvaluation dbEval "s1" (.parsed
        [.jobj [("evaluator", .jstr "d"), ("sessionId", .jnum 7),
          ("recordingFilename", .jstr "a.wav"), ("grade", .jnum 2),
          ("comments", .jstr "ok"), ("skipped", .jbool false)],
         .jobj [("evaluator", .jstr "d"), ("sessionId", .jnum 99),
          ("recordingFilename", .jstr "a.wav"), ("grade", .jnum 1),
          ("comments", .jstr "no"), ("skipped", .jbool false)]]) =
        .ok (("Could not find a recording with some data.", 400),
          { dbEval with evaluation := dbEval.evaluation ++ pendingNew }) ∧
      pendingNew.length = 1 := by
  obtain ⟨pn, h1, h2, h3⟩ := C5_recordEvaluation dbEval "s1"
    [.jobj [("evaluator", .jstr "d"), ("sessionId", .jnum 7),
      ("recordingFilename", .jstr "a.wav"), ("grade", .jnum 2),
      ("comments", .jstr "ok"), ("skipped", .jbool false)],
     .jobj [("evaluator", .jstr "d"), ("sessionId", .jnum 99),
      ("recordingFilename", .jstr "a.wav"), ("grade", .jnum 1),
      ("comments", .jstr "no"), ("skipped", .jbool false)]]
    (by intro e he
        rcases List.mem_cons.mp he with rfl | he2
        · rfl
        · rcases List.mem_singleton.mp he2 with rfl
          rfl)
  exact ⟨pn, h1.trans (by rfl), h3.trans (by rfl)⟩

/-! ## C6: the Random slice -/

theorem filter_contains_length {l : List RecordingRow} {s : List Int}
    (hl : (l.map RecordingRow.id).Nodup) (hs : s.Nodup)
    (hsub : ∀ x ∈ s, x ∈ l.map RecordingRow.id) :
    (l.filter (fun r => s.contains r.id)).length = s.length := by
  have hnd : ((l.filter (fun r => s.contains r.id)).map RecordingRow.id).Nodup :=
    List.Nodup.sublist (List.Sublist.map _ (List.filter_sublist l)) hl
  have hperm : ((l.filter (fun r => s.contains r.id)).map RecordingRow.id).Perm s := by
    apply (List.perm_ext_iff_of_nodup hnd hs).mpr
    intro a
    constructor
    · intro ha
      obtain ⟨r, hr, rfl⟩ := List.mem_map.mp ha
      have hc := (List.mem_filter.mp hr).2
      exact List.elem_iff.mp hc
    · intro ha
      obtain ⟨r, hr, rfl⟩ := List.mem_map.mp (hsub a ha)
      apply List.mem_map.mpr
      refine ⟨r, List.mem_filter.mpr ⟨hr, ?_⟩, rfl⟩
      exact List.elem_iff.mpr ha
  have := hperm.length_eq
  simpa using this

theorem token_filter_singleton {tokens : List TokenRow} {v : JVal}
    (htok : ∃ t ∈ tokens, jvalEqInt v t.id = true)
    (hnodup : (tokens.map TokenRow.id).Nodup) :
    ∃ t ∈ tokens, tokens.filter (fun t => jvalEqInt v t.id) = [t] := by
  induction tokens with
  | nil =>
    obtain ⟨t, ht, -⟩ := htok
    cases ht
  | cons t0 rest ih =>
    rcases h0 : jvalEqInt v t0.id with _ | _
    · obtain ⟨t, ht, hmt⟩ := htok
      rcases List.mem_cons.mp ht with rfl | htr
      · rw [h0] at hmt
        cases hmt
      · obtain ⟨t1, ht1, heq⟩ := ih ⟨t, htr, hmt⟩ (List.nodup_cons.mp hnodup).2
        refine ⟨t1, List.mem_cons_of_mem _ ht1, ?_⟩
        rw [List.filter_cons, h0]
        exact heq
    · refine ⟨t0, List.mem_cons_self _ _, ?_⟩
      rw [List.filter_cons, h0]
      simp only [if_true]
      have hrest : rest.filter (fun t => jvalEqInt v t.id) = [] := by
        rw [List.filter_eq_nil_iff]
        intro t1 ht1
        intro hcontra
        have h1 : v = .jnum t0.id := jvalEqInt_iff.mp h0
        have h2 : v = .jnum t1.id := jvalEqInt_iff.mp hcontra
        have : t0.id = t1.id := by
          rw [h1] at h2
          injection h2
        have hnotin := (List.nodup_cons.mp hnodup).1
        apply hnotin
        rw [this]
        exact List.mem_map.mpr ⟨t1, ht1, rfl⟩
      rw [hrest]


theorem flatMap_token_forall2 (tokens : List TokenRow) (hnodup : (tokens.map TokenRow.id).Nodup) :
    ∀ (recs : List RecordingRow),
    (∀ r ∈ recs, ∃ t ∈ tokens, jvalEqInt r.tokenId t.id = true) →
    List.Forall₂ (fun (r : RecordingRow) (x : Int × String × String) =>
      ∃ t ∈ tokens, jvalEqInt r.tokenId t.id = true ∧ x = (r.sessionId, r.filename, t.inputToken))
      recs
      (recs.flatMap (fun r => (tokens.filter (fun t => jvalEqInt r.tokenId t.id)).map
        (fun t => (r.sessionId, r.filename, t.inputToken)))) := by
  intro recs
  induction recs with
  | nil =>
    intro _
    exact List.Forall₂.nil
  | cons r rest ih =>
    intro hall
    obtain ⟨t, ht, heq⟩ := token_filter_singleton (hall r (List.mem_cons_self _ _)) hnodup
    rw [List.flatMap_cons, heq]
    have hmt : jvalEqInt r.tokenId t.id = true := by
      have := List.mem_filter.mp (heq ▸ List.mem_singleton_self t)
      exact this.2
    exact List.Forall₂.cons ⟨t, ht, hmt, rfl⟩
      (ih (fun r2 h2 => hall r2 (List.mem_cons_of_mem _ h2)))

/-- C6: `getFromSet` with the synthetic `'Random'` set.  The `progress`
argument is ignored (any two values give the same result).  Under the
`random.sample` contract — the draw has size `count`, is duplicate-free and
comes from the pool of recording ids with the placeholder (first row)
removed — and the schema invariants (unique recording ids, every recording
referencing exactly one existing token), the call returns 200 with exactly
`count` link/prompt pairs, one per drawn recording: the underlying
recordings are pairwise distinct and none of them is the placeholder.  No
determinism across calls is claimed: the draw is whatever the sampler
returned. -/
theorem C6_fetchSliceRandom (recsUrl : String) (db : DB)
    (sample : List Int → Nat → List Int) (count progress1 progress2 : Nat)
    (hcount : 1 ≤ count)
    (hle : count ≤ ((db.recording.map RecordingRow.id).drop 1).length)
    (hlen : (sample ((db.recording.map RecordingRow.id).drop 1) count).length = count)
    (hnd : (sample ((db.recording.map RecordingRow.id).drop 1) count).Nodup)
    (hin : ∀ x ∈ sample ((db.recording.map RecordingRow.id).drop 1) count,
      x ∈ (db.recording.map RecordingRow.id).drop 1)
    (hids : (db.recording.map RecordingRow.id).Nodup)
    (htok : ∀ r ∈ db.recording, ∃ t ∈ db.token, jvalEqInt r.tokenId t.id = true)
    (htokids : (db.token.map TokenRow.id).Nodup) :
    getFromSet recsUrl db sample "Random" progress1 count =
      getFromSet recsUrl db sample "Random" progress2 count ∧
    ∃ recs pairs,
      getFromSet recsUrl db sample "Random" progress1 count = .ok (.pairs pairs, 200) ∧
      pairs.length = count ∧
      recs.length = count ∧
      (recs.map RecordingRow.id).Nodup ∧
      (∀ r ∈ recs, r ∈ db.recording ∧
        r.id ∈ (db.recording.map RecordingRow.id).drop 1) ∧
      List.Forall₂ (fun (r : RecordingRow) (p : String × String) =>
        ∃ t ∈ db.token, jvalEqInt r.tokenId t.id = true ∧
          p = (recsUrl ++ "/session_" ++ toString r.sessionId ++ "/" ++ r.filename,
            t.inputToken)) recs pairs := by
  constructor
  · rfl
  · have hsub : ∀ x ∈ sample ((db.recording.map RecordingRow.id).drop 1) count,
        x ∈ db.recording.map RecordingRow.id :=
      fun x hx => List.mem_of_mem_drop (hin x hx)
    have hreclen : (db.recording.filter
        (fun r => (sample ((db.recording.map RecordingRow.id).drop 1) count).contains r.id)).length
        = count := by
      rw [filter_contains_length hids hnd hsub]
      exact hlen
    have hrecall : ∀ r ∈ db.recording.filter
        (fun r => (sample ((db.recording.map RecordingRow.id).drop 1) count).contains r.id),
        ∃ t ∈ db.token, jvalEqInt r.tokenId t.id = true :=
      fun r hr => htok r (List.mem_of_mem_filter hr)
    have hf2 := flatMap_token_forall2 db.token htokids
      (db.recording.filter
        (fun r => (sample ((db.recording.map RecordingRow.id).drop 1) count).contains r.id))
      hrecall
    -- the joined rows, one per drawn recording
    have hjlen := hf2.length_eq
    refine ⟨db.recording.filter
        (fun r => (sample ((db.recording.map RecordingRow.id).drop 1) count).contains r.id),
      ((db.recording.filter
        (fun r => (sample ((db.recording.map RecordingRow.id).drop 1) count).contains r.id)).flatMap
          (fun r => (db.token.filter (fun t => jvalEqInt r.tokenId t.id)).map
            (fun t => (r.sessionId, r.filename, t.inputToken)))).map
        (fun x => (recsUrl ++ "/session_" ++ toString x.1 ++ "/" ++ x.2.1, x.2.2)),
      ?_, ?_, hreclen, ?_, ?_, ?_⟩
    · -- the call reduces to the 200 answer with the formatted pairs
      show getFromSet recsUrl db sample "Random" progress1 count = _
      unfold getFromSet
      rw [if_pos (show (("Random" : String) == "Random") = true from rfl), if_pos hle]
      have hse : (sample ((db.recording.map RecordingRow.id).drop 1) count).isEmpty = false := by
        cases hs : sample ((db.recording.map RecordingRow.id).drop 1) count with
        | nil =>
          rw [hs] at hlen
          simp at hlen
          omega
        | cons a as => rfl
      have hpe : ((db.recording.filter
          (fun r => (sample ((db.recording.map RecordingRow.id).drop 1) count).contains r.id)).flatMap
            (fun r => (db.token.filter (fun t => jvalEqInt r.tokenId t.id)).map
              (fun t => (r.sessionId, r.filename, t.inputToken)))).map
          (fun x => (recsUrl ++ "/session_" ++ toString x.1 ++ "/" ++ x.2.1, x.2.2)) ≠ [] := by
        intro hcontra
        have h0 : ((db.recording.filter
            (fun r => (sample ((db.recording.map RecordingRow.id).drop 1) count).contains r.id)).flatMap
              (fun r => (db.token.filter (fun t => jvalEqInt r.tokenId t.id)).map
                (fun t => (r.sessionId, r.filename, t.inputToken)))).length = 0 := by
          rw [← List.length_map _
            (fun x : Int × String × String =>
              (recsUrl ++ "/session_" ++ toString x.1 ++ "/" ++ x.2.1, x.2.2)), hcontra]
          rfl
        rw [← hjlen] at h0
        rw [hreclen] at h0
        omega
      have hpe2 : (((db.recording.filter
          (fun r => (sample ((db.recording.map RecordingRow.id).drop 1) count).contains r.id)).flatMap
            (fun r => (db.token.filter (fun t => jvalEqInt r.tokenId t.id)).map
              (fun t => (r.sessionId, r.filename, t.inputToken)))).map
          (fun x => (recsUrl ++ "/session_" ++ toString x.1 ++ "/" ++ x.2.1, x.2.2))).isEmpty
          = false := List.isEmpty_eq_false.mpr hpe
      simp only [hse, hpe2, Bool.false_eq_true, if_false]
    · -- length of the formatted pairs
      rw [List.length_map, ← hjlen, hreclen]
    · exact List.Nodup.sublist (List.Sublist.map _ (List.filter_sublist _)) hids
    · intro r hr
      refine ⟨List.mem_of_mem_filter hr, ?_⟩
      have hc := (List.mem_filter.mp hr).2
      exact hin r.id (List.elem_iff.mp hc)
    · -- compose the join correspondence with the link formatting
      refine List.forall₂_map_right_iff.mpr (hf2.imp ?_)
      rintro r x ⟨t, ht, hmt, rfl⟩
      exact ⟨t, ht, hmt, rfl⟩



/-- Witness for C6: with `count = 3` over the three non-placeholder
recordings, two calls with different `progress` agree, and the result is 200
with exactly 3 distinct pairs. -/
theorem C6_fetchSliceRandom_witness :
    getFromSet "recs" dbC6 sampleTake "Random" 0 3 =
      getFromSet "recs" dbC6 sampleTake "Random" 99 3 ∧
    ∃ (recs : List RecordingRow) (pairs : List (String × String)),
      getFromSet "recs" dbC6 sampleTake "Random" 0 3 = .ok (.pairs pairs, 200) ∧
      pairs.length = 3 ∧ recs.length = 3 ∧ (recs.map RecordingRow.id).Nodup := by
  obtain ⟨heq, recs, pairs, h1, h2, h3, h4, -, -⟩ :=
    C6_fetchSliceRandom "recs" dbC6 sampleTake 3 0 99
      (by decide) (by decide) (by decide) (by decide) (by decide) (by decide)
      (by decide) (by decide)
  exact ⟨heq, recs, pairs, h1, h2, h3, h4⟩

/-! ## C8: malformed or wrong-type envelopes -/

/-- Counterexample to C8 as stated: a submission whose body is malformed
JSON does *not* fail with a ValidationError — `json.loads` raises, the
caught `ValueError` only sets the error flag, and the per-recording loop
then subscripts the still-`None` `jsonDecoded`, raising an uncaught
`TypeError` (`None['recordingsInfo']`), i.e. a crash mapped by the server to
a 500, not a 400. -/
theorem C8_counterexample :
    processSessionData "recs" dbTok [] none (.ofList [⟨"a.wav", "A"⟩]) =
      (.error .typeError, dbTok, []) := rfl

/-- C8 amended: (a) for every submission with a malformed JSON body and a
non-empty upload list the call raises the uncaught `TypeError` (never a
400), leaving database and filesystem untouched; (b) a well-formed JSON
object envelope whose `type` is anything other than `'session'` (and which
carries no top-level `recordingsInfo` usable for the uploads) fails with the
400 `'Missing recording info in session data.'`, database and filesystem
untouched. -/
theorem C8_amended (recordingsPath : String) (db : DB) (fs : List FsFile) :
    (∀ r recs, processSessionData recordingsPath db fs none (.ofList (r :: recs)) =
      (.error .typeError, db, fs)) ∧
    (∀ (fields : List (String × JVal)) (tval : JVal) (r : Rec) (recs : List Rec),
      fields.lookup "type" = some tval →
      jvalBeq tval (.jstr "session") = false →
      fields.lookup "recordingsInfo" = none →
      processSessionData recordingsPath db fs (some (.jobj fields)) (.ofList (r :: recs)) =
        (.ok ⟨.plain "Missing recording info in session data.", 400⟩, db, fs)) := by
  constructor
  · intro r recs
    rfl
  · intro fields tval r recs hty hne hri
    have hex : extractPhase db (some (.jobj fields)) =
        ⟨db, "Wrong type of data.", .jobj fields, .jnull, none⟩ := by
      unfold extractPhase
      simp only [pyGet, hty, hne, Bool.false_eq_true, if_false]
    unfold processSessionData
    rw [hex]
    have hloop : recLoop recordingsPath (.jobj fields) false db.token .jnull none none
        (r :: recs) "Wrong type of data." db.recording fs = .raised .keyError fs := by
      unfold recLoop
      simp only [recInfoEntry, pyGet, hri]
    simp only [sessionPhase]
    simp only [show (("Wrong type of data." : String) == "") = false from rfl,
      Bool.false_eq_true, if_false, List.isEmpty_cons, Option.map_none']
    rw [hloop]

/-- Witness for the 400 half of C8_amended: a concrete envelope of type
"other" with no usable top-level recordingsInfo gets the 400, with db and
filesystem untouched. -/
theorem C8_amended_witness :
    processSessionData "recs" dbTok [] (some (.jobj [("type", .jstr "other")]))
        (.ofList [⟨"a.wav", "A"⟩]) =
      (.ok ⟨.plain "Missing recording info in session data.", 400⟩, dbTok, []) :=
  (C8_amended "recs" dbTok []).2 [("type", .jstr "other")] (.jstr "other")
    ⟨"a.wav", "A"⟩ [] rfl rfl rfl


/-! ## C2: the dual write under a failing transaction -/


/-- Counterexample to C2 as stated: the second recording's token lookup
fails, so the enclosing transaction is not committed (400, no Recording row
persists) — yet the first recording, written *before* the error
accumulated, sits under the normal session path `recs/session_1/`, not
under the lost quarantine.  Only the recording written after the error went
to `recs/lost/session_1/`. -/
theorem C2_counterexample :
    (processSessionData "recs" dbTok [] (some jdC2)
      (.ofList [⟨"a.wav", "A"⟩, ⟨"b.wav", "B"⟩])).1 =
        .ok ⟨.plain "No token with supplied id.", 400⟩ ∧
    ((processSessionData "recs" dbTok [] (some jdC2)
      (.ofList [⟨"a.wav", "A"⟩, ⟨"b.wav", "B"⟩])).2.1).recording = [] ∧
    (processSessionData "recs" dbTok [] (some jdC2)
      (.ofList [⟨"a.wav", "A"⟩, ⟨"b.wav", "B"⟩])).2.2.map FsFile.path =
      ["recs/session_1/bob_a.wav", "recs/session_1/bob_a.txt",
       "recs/lost/session_1/bob_b.wav", "recs/lost/session_1/bob_b.txt"] :=
  ⟨rfl, rfl, rfl⟩


theorem writeRec_shift (p : String) (fs : List FsFile) (rec : Rec) (token : JVal)
    (sid : Option Int) (sn : JVal) (lost : Bool) :
    (writeRecToFilesystem p fs rec token sid sn lost).1 =
      (writeRecToFilesystem p [] rec token sid sn lost).1 ∧
    (writeRecToFilesystem p fs rec token sid sn lost).2 =
      fs ++ (writeRecToFilesystem p [] rec token sid sn lost).2 := by
  simp only [writeRecToFilesystem]
  cases h : (if pyFalsy token then JVal.jstr "No prompt." else token) <;> exact ⟨rfl, by simp⟩

theorem recLoop_fs_shift (p : String) (jd : JVal) (cb : Bool) (tt : List TokenRow)
    (sn : JVal) (sid spid : Option Int) :
    ∀ (recs : List Rec) (error : String) (recTable : List RecordingRow) (fs : List FsFile),
      fsOfLoop (recLoop p jd cb tt sn sid spid recs error recTable fs) =
        fs ++ fsOfLoop (recLoop p jd cb tt sn sid spid recs error recTable []) := by
  intro recs
  induction recs with
  | nil =>
    intro error recTable fs
    simp [recLoop, fsOfLoop]
  | cons r rest ih =>
    intro error recTable fs
    simp only [recLoop]
    split
    · simp [fsOfLoop]
    · split
      · next entry tokenId tk hjt =>
        obtain ⟨he1, he2⟩ := writeRec_shift p fs r tk sid sn (!(error == ""))
        rcases hw1 : writeRecToFilesystem p fs r tk sid sn (!(error == "")) with ⟨res1, fs1⟩
        rcases hw2 : writeRecToFilesystem p [] r tk sid sn (!(error == "")) with ⟨res2, fs2⟩
        rw [hw1, hw2] at he1 he2
        simp only at he1 he2
        subst he1
        cases res1 with
        | error e => simpa [fsOfLoop] using he2
        | ok rn =>
          show fsOfLoop (recLoop p jd cb tt sn sid spid rest error _ fs1) =
            fs ++ fsOfLoop (recLoop p jd cb tt sn sid spid rest error _ fs2)
          rw [ih error _ fs1, ih error _ fs2, he2, List.append_assoc]
      · split
        · split
          · next hfind =>
            obtain ⟨he1, he2⟩ := writeRec_shift p fs r .jnull sid sn
              (!(("No token with supplied id." : String) == ""))
            rcases hw1 : writeRecToFilesystem p fs r .jnull sid sn
              (!(("No token with supplied id." : String) == "")) with ⟨res1, fs1⟩
            rcases hw2 : writeRecToFilesystem p [] r .jnull sid sn
              (!(("No token with supplied id." : String) == "")) with ⟨res2, fs2⟩
            rw [hw1, hw2] at he1 he2
            simp only at he1 he2
            subst he1
            cases res1 with
            | error e => simpa [fsOfLoop] using he2
            | ok rn =>
              show fsOfLoop (recLoop p jd cb tt sn sid spid rest
                  "No token with supplied id." _ fs1) =
                fs ++ fsOfLoop (recLoop p jd cb tt sn sid spid rest
                  "No token with supplied id." _ fs2)
              rw [ih _ _ fs1, ih _ _ fs2, he2, List.append_assoc]
          · next tok hfind =>
            obtain ⟨he1, he2⟩ := writeRec_shift p fs r (.jstr tok.inputToken) sid sn
              (!(error == ""))
            rcases hw1 : writeRecToFilesystem p fs r (.jstr tok.inputToken) sid sn
              (!(error == "")) with ⟨res1, fs1⟩
            rcases hw2 : writeRecToFilesystem p [] r (.jstr tok.inputToken) sid sn
              (!(error == "")) with ⟨res2, fs2⟩
            rw [hw1, hw2] at he1 he2
            simp only at he1 he2
            subst he1
            cases res1 with
            | error e => simpa [fsOfLoop] using he2
            | ok rn =>
              show fsOfLoop (recLoop p jd cb tt sn sid spid rest error _ fs1) =
                fs ++ fsOfLoop (recLoop p jd cb tt sn sid spid rest error _ fs2)
              rw [ih error _ fs1, ih error _ fs2, he2, List.append_assoc]
        · simp [fsOfLoop]

theorem recLoop_fs_extends (p : String) (jd : JVal) (cb : Bool) (tt : List TokenRow)
    (sn : JVal) (sid spid : Option Int)
    (recs : List Rec) (error : String) (recTable : List RecordingRow) (fs : List FsFile) :
    ∃ t, fsOfLoop (recLoop p jd cb tt sn sid spid recs error recTable fs) = fs ++ t :=
  ⟨fsOfLoop (recLoop p jd cb tt sn sid spid recs error recTable []),
    recLoop_fs_shift p jd cb tt sn sid spid recs error recTable fs⟩

/-- C2 amended: filesystem writes are never rolled back — whatever
`processSessionData` does (success, validation failure, failed transaction
or an uncaught exception), the resulting filesystem is the input filesystem
plus appended files; nothing already written is deleted or moved.  Which
side of the split a recording's files land on is the position of the error:
under the lost quarantine when the error preceded that recording's write
(counterexample `C2_counterexample`: a recording written *before* the error
stays under the normal session path even though the transaction failed). -/
theorem C2_neverRolledBack (p : String) (db : DB) (fs : List FsFile)
    (jsonData : Option JVal) (recordings : RecordingsArg) :
    ∃ t, (processSessionData p db fs jsonData recordings).2.2 = fs ++ t := by
  unfold processSessionData
  cases recordings with
  | notList => exact ⟨[], by simp⟩
  | ofList recs =>
    rcases hre : recs.isEmpty with _ | _
    · simp only [hre, Bool.false_eq_true, if_false]
      cases hsp : sessionPhase (extractPhase db jsonData) with
      | error e =>
        exact ⟨[], by simp⟩
      | ok pr =>
        obtain ⟨tbl, sid?⟩ := pr
        obtain ⟨t, ht⟩ := recLoop_fs_extends p (extractPhase db jsonData).jsonDecoded
          ((extractPhase db jsonData).error == "") (extractPhase db jsonData).db.token
          (extractPhase db jsonData).speakerName sid?
          (Option.map SessionVals.speakerId (extractPhase db jsonData).vals) recs
          (extractPhase db jsonData).error (extractPhase db jsonData).db.recording fs
        cases hl : recLoop p (extractPhase db jsonData).jsonDecoded
            ((extractPhase db jsonData).error == "") (extractPhase db jsonData).db.token
            (extractPhase db jsonData).speakerName sid?
            (Option.map SessionVals.speakerId (extractPhase db jsonData).vals) recs
            (extractPhase db jsonData).error (extractPhase db jsonData).db.recording fs with
        | raised e fs1 =>
          have hfs1 : fs1 = fs ++ t := by rw [hl] at ht; exact ht
          refine ⟨t, ?_⟩
          cases e <;> simp [hl, hfs1]
        | done error1 recTable1 fs1 =>
          have hfs1 : fs1 = fs ++ t := by rw [hl] at ht; exact ht
          refine ⟨t, ?_⟩
          simp only [hl]
          split
          · split <;> exact hfs1
          · exact hfs1
    · simp only [hre, if_true]
      exact ⟨[], by simp⟩

/-! ## C1: the dual-write guarantee -/

/-- Counterexample to C1 as stated: an identity-resolution failure (the
speakerInfo object has no `name`) leaves the cursor unbound, and a recording
without an inline `tokenText` then needs it — the loop dies with
`UnboundLocalError` before a single byte reaches the disk, so the files are
not written "regardless of any upstream error". -/
theorem C1_counterexample :
    processSessionData "recs" dbTok [] (some jdC1) (.ofList [⟨"a.wav", "A"⟩]) =
      (.error .unboundLocalError, dbTok, []) := rfl

theorem writableToken_eq (token : JVal) (h : writableToken token = true) :
    ∃ s, (if pyFalsy token then JVal.jstr "No prompt." else token) = .jstr s := by
  unfold writableToken at h
  cases hc : (if pyFalsy token then JVal.jstr "No prompt." else token) <;>
    rw [hc] at h <;> first | exact ⟨_, rfl⟩ | simp at h

theorem writeRec_ok (p : String) (fs : List FsFile) (rec : Rec) (token : JVal)
    (sid : Option Int) (sn : JVal) (lost : Bool) (s : String)
    (h : (if pyFalsy token then JVal.jstr "No prompt." else token) = .jstr s) :
    writeRecToFilesystem p fs rec token sid sn lost =
      (.ok (recNameOf sn rec.filename),
       fs ++ [⟨recWavePath p lost sid sn rec.filename, rec.content⟩,
              ⟨strReplace (recWavePath p lost sid sn rec.filename) ".wav" ".txt", s⟩]) := by
  simp only [writeRecToFilesystem, recWavePath, h, List.append_assoc, List.cons_append,
    List.nil_append]

theorem recLoop_writes (p : String) (jd : JVal) (cb : Bool) (tt : List TokenRow)
    (sn : JVal) (sid spid : Option Int) :
    ∀ (recs : List Rec) (error : String) (recTable : List RecordingRow) (fs : List FsFile),
      (∀ r ∈ recs, inlineWritable jd r.filename = true) →
      ∃ tbl1 t,
        recLoop p jd cb tt sn sid spid recs error recTable fs = .done error tbl1 (fs ++ t) ∧
        ∀ r ∈ recs,
          (⟨recWavePath p (!(error == "")) sid sn r.filename, r.content⟩ : FsFile) ∈ fs ++ t ∧
          ∃ txt,
            (⟨strReplace (recWavePath p (!(error == "")) sid sn r.filename) ".wav" ".txt",
              txt⟩ : FsFile) ∈ fs ++ t := by
  intro recs
  induction recs with
  | nil =>
    intro error recTable fs _
    exact ⟨recTable, [], by simp [recLoop], by intro r hr; cases hr⟩
  | cons r rest ih =>
    intro error recTable fs hgood
    have hr := hgood r (List.mem_cons_self r rest)
    unfold inlineWritable at hr
    cases hri : recInfoEntry jd r.filename with
    | error e => simp only [hri, Bool.false_eq_true] at hr
    | ok pr =>
      obtain ⟨entry, tokenId⟩ := pr
      simp only [hri] at hr
      cases hjt : jsonGet? entry "tokenText" with
      | none => simp only [hjt, Bool.false_eq_true] at hr
      | some tk =>
        simp only [hjt] at hr
        obtain ⟨s, hs⟩ := writableToken_eq tk hr
        obtain ⟨recTable1, hstep⟩ :
            ∃ recTable1, recLoop p jd cb tt sn sid spid (r :: rest) error recTable fs =
              recLoop p jd cb tt sn sid spid rest error recTable1
                (fs ++ [⟨recWavePath p (!(error == "")) sid sn r.filename, r.content⟩,
                  ⟨strReplace (recWavePath p (!(error == "")) sid sn r.filename)
                    ".wav" ".txt", s⟩]) := by
          exact ⟨_, by
            simp only [recLoop, hri, hjt,
              writeRec_ok p fs r tk sid sn (!(error == "")) s hs]
            rfl⟩
        obtain ⟨tbl1, t, hdone, hmem⟩ := ih error recTable1
          (fs ++ [⟨recWavePath p (!(error == "")) sid sn r.filename, r.content⟩,
            ⟨strReplace (recWavePath p (!(error == "")) sid sn r.filename)
              ".wav" ".txt", s⟩])
          (fun r1 h1 => hgood r1 (List.mem_cons_of_mem r h1))
        refine ⟨tbl1,
          ⟨recWavePath p (!(error == "")) sid sn r.filename, r.content⟩ ::
            ⟨strReplace (recWavePath p (!(error == "")) sid sn r.filename)
              ".wav" ".txt", s⟩ :: t, ?_, ?_⟩
        · rw [hstep, hdone]
          simp
        · intro r1 h1
          rcases List.mem_cons.mp h1 with h1 | h1
          · subst h1
            exact ⟨by simp, ⟨s, by simp⟩⟩
          · have hm := hmem r1 h1
            have heq :
                (fs ++ [⟨recWavePath p (!(error == "")) sid sn r.filename, r.content⟩,
                  ⟨strReplace (recWavePath p (!(error == "")) sid sn r.filename)
                    ".wav" ".txt", s⟩]) ++ t =
                fs ++ ⟨recWavePath p (!(error == "")) sid sn r.filename, r.content⟩ ::
                  ⟨strReplace (recWavePath p (!(error == "")) sid sn r.filename)
                    ".wav" ".txt", s⟩ :: t := by simp
            rw [heq] at hm
            exact hm

/-- C1 amended: the dual-write guarantee holds for every recording whose
`recordingsInfo` entry resolves and carries a writable inline `tokenText`
(and provided the session upsert itself did not raise): its audio lands on
disk with the submitted content and a sibling transcript, under the normal
session directory when no error accumulated during extraction, under the
lost quarantine keyed by the session id or `'unknown'` otherwise.  Without
the inline prompt an upstream error instead kills the loop unwritten
(`C1_counterexample`). -/
theorem C1_amended (p : String) (db : DB) (fs : List FsFile) (jsonData : Option JVal)
    (recs : List Rec) (sessions1 : List SessionRow) (sid? : Option Int)
    (hsess : sessionPhase (extractPhase db jsonData) = .ok (sessions1, sid?))
    (hgood : ∀ r ∈ recs,
      inlineWritable (extractPhase db jsonData).jsonDecoded r.filename = true) :
    ∀ r ∈ recs,
      (⟨recWavePath p (!((extractPhase db jsonData).error == "")) sid?
          (extractPhase db jsonData).speakerName r.filename, r.content⟩ : FsFile) ∈
        (processSessionData p db fs jsonData (.ofList recs)).2.2 ∧
      ∃ txt,
        (⟨strReplace (recWavePath p (!((extractPhase db jsonData).error == "")) sid?
            (extractPhase db jsonData).speakerName r.filename) ".wav" ".txt",
          txt⟩ : FsFile) ∈
          (processSessionData p db fs jsonData (.ofList recs)).2.2 := by
  intro r hr
  cases recs with
  | nil => cases hr
  | cons a as =>
    obtain ⟨tbl1, t, hdone, hmem⟩ := recLoop_writes p (extractPhase db jsonData).jsonDecoded
      ((extractPhase db jsonData).error == "") (extractPhase db jsonData).db.token
      (extractPhase db jsonData).speakerName sid?
      (Option.map SessionVals.speakerId (extractPhase db jsonData).vals)
      (a :: as) (extractPhase db jsonData).error (extractPhase db jsonData).db.recording
      fs hgood
    have hfs : (processSessionData p db fs jsonData (.ofList (a :: as))).2.2 = fs ++ t := by
      simp only [processSessionData, List.isEmpty_cons, Bool.false_eq_true, if_false]
      simp only [hsess, hdone]
      split
      · split <;> rfl
      · rfl
    rw [hfs]
    exact hmem r hr

/-- Witness for C1_amended: the identity phase fails, yet the recording with
an inline prompt is saved — both files turn up under
`recs/lost/session_unknown/`. -/
theorem C1_amended_witness :
    sessionPhase (extractPhase dbTok (some jdC1w)) = .ok ([], none) ∧
    ((⟨"recs/lost/session_unknown/unknown_a.wav", "A"⟩ : FsFile) ∈
        (processSessionData "recs" dbTok [] (some jdC1w) (.ofList [⟨"a.wav", "A"⟩])).2.2 ∧
      ∃ txt,
        (⟨"recs/lost/session_unknown/unknown_a.txt", txt⟩ : FsFile) ∈
          (processSessionData "recs" dbTok [] (some jdC1w) (.ofList [⟨"a.wav", "A"⟩])).2.2) :=
  ⟨rfl,
    C1_amended "recs" dbTok [] (some jdC1w) [⟨"a.wav", "A"⟩] [] none rfl (by decide)
      ⟨"a.wav", "A"⟩ (List.mem_singleton.mpr rfl)⟩

end Eyra
